import Mathlib

/-!
# Verification of the dining-hall menu schedule engine

A shallow embedding of the Rust sources (`src/storage.rs`, `src/scheduler.rs`,
`src/handlers.rs`) of the dining-hall dashboard, together with proofs and
refutations of the specification's claims about the entity store, the schedule
engine's tick, and the schedule handlers.

Modelling conventions:
* `Uuid` is modelled as `Nat`; `chrono::DateTime<Utc>` as `Int` (seconds on the
  UTC timeline, so `chrono::Duration::days(1)` is `86400`).
* Time is constant within one tick / one execution pass: every `Utc::now()`
  call of a pass reads the single parameter `now`.
* File persistence is abstracted away: a snapshot rewrite of the in-memory
  collection always succeeds, so only the in-memory state and the typed error
  returned on an id-lookup miss are modelled.  Lock poisoning and disk I/O
  failure branches are therefore not reachable in the model.
* `storage.rs` declares `ScheduleStatus` with variants `Active`, `Inactive`,
  `Pending`; `scheduler.rs` additionally references `Ended`, `Conflicted` and
  `Failed`, and reads/writes a `MenuSchedule.error_message` field.  The
  embedding takes the union: the status type has all six constructors and the
  schedule record carries the optional error message.
-/

namespace DiningHall

/-- `storage.rs` `MenuCategory` (lines 22-28). -/
inductive MenuCategory
  | Mains
  | Sides
  | Desserts
  | Beverages
deriving DecidableEq, Repr

/-- `storage.rs` `MenuItem` (lines 12-20). -/
structure MenuItem where
  id : Nat
  name : String
  category : MenuCategory
  description : String
  allergens : List String
  is_available : Bool
deriving DecidableEq, Repr

/-- `storage.rs` `ScheduleRecurrence` (lines 47-53). -/
inductive ScheduleRecurrence
  | Daily
  | Weekly
  | Monthly
  | Custom
deriving DecidableEq, Repr

/-- `storage.rs` `ScheduleStatus` (lines 55-60) declares `Active`, `Inactive`,
`Pending`; `scheduler.rs` additionally references `Ended`, `Conflicted`,
`Failed`.  The embedding carries the union of the six constructors. -/
inductive ScheduleStatus
  | Active
  | Inactive
  | Pending
  | Ended
  | Conflicted
  | Failed
deriving DecidableEq, Repr

/-- `storage.rs` `MenuPreset` (lines 62-70). -/
structure MenuPreset where
  id : Nat
  name : String
  description : String
  menu_item_ids : List Nat
  created_at : Int
  updated_at : Int
deriving DecidableEq, Repr

/-- `storage.rs` `MenuSchedule` (lines 72-84); the `error_message` field is the
one read and written by `scheduler.rs` (absent from the struct declaration in
`storage.rs`, which does not compile against the scheduler without it). -/
structure MenuSchedule where
  id : Nat
  preset_id : Nat
  name : String
  description : String
  start_time : Int
  end_time : Int
  recurrence : ScheduleRecurrence
  status : ScheduleStatus
  created_at : Int
  updated_at : Int
  error_message : Option String
deriving DecidableEq, Repr

/-- The `kind` of a `std::io::Error`; only the distinction between `NotFound`
and everything else is relevant here. -/
inductive IoErrorKind
  | NotFoundKind
  | OtherKind
deriving DecidableEq, Repr

/-- `storage.rs` `StorageError` (lines 86-94).  The `Io` constructor records
the `io::ErrorKind` and the message of the wrapped `std::io::Error`. -/
inductive StorageError
  | Io (kind : IoErrorKind) (msg : String)
  | Json (msg : String)
  | PoisonError
deriving DecidableEq, Repr

/-- The `thiserror` `Display` implementation of `StorageError`. -/
def StorageError.display : StorageError → String
  | .Io _ msg => "IO error: " ++ msg
  | .Json msg => "JSON serialization error: " ++ msg
  | .PoisonError => "Mutex poison error"

/-- `error_handler.rs` `AppError` (lines 16-37). -/
inductive AppError
  | Storage (msg : String)
  | Auth (msg : String)
  | Validation (msg : String)
  | NotFound (msg : String)
  | Internal (msg : String)
deriving DecidableEq, Repr

/-- The `thiserror` `Display` implementation of `AppError`. -/
def AppError.display : AppError → String
  | .Storage msg => "Storage error: " ++ msg
  | .Auth msg => "Authentication error: " ++ msg
  | .Validation msg => "Validation error: " ++ msg
  | .NotFound msg => "Not found: " ++ msg
  | .Internal msg => "Internal server error: " ++ msg

/-- `storage.rs` `impl From<StorageError> for AppError` (lines 96-104): every
storage failure, the id-lookup miss included, collapses into `AppError.Storage`
carrying only the display string of the wrapped error. -/
def appError_from_storage : StorageError → AppError
  | .Io _ msg => .Storage msg
  | .Json msg => .Storage msg
  | .PoisonError => .Storage "Poison error"

/-- The in-memory state of `storage.rs` `JsonStorage` restricted to the three
collections the schedule engine touches. -/
structure StorageState where
  menu_items : List MenuItem
  menu_presets : List MenuPreset
  menu_schedules : List MenuSchedule
deriving DecidableEq, Repr

/-- Replace the entity at the first position whose id matches (the
`iter().position` + assignment idiom of every `update_*` method of
`storage.rs`); `none` when no id matches. -/
def replaceById {α : Type} (getId : α → Nat) : List α → Nat → α → Option (List α)
  | [], _, _ => none
  | x :: rest, i, v =>
    if getId x = i then some (v :: rest)
    else (replaceById getId rest i v).map (x :: ·)

/-- Remove the entity at the first position whose id matches (the
`iter().position` + `remove` idiom of every `delete_*` method of
`storage.rs`); `none` when no id matches. -/
def removeById {α : Type} (getId : α → Nat) : List α → Nat → Option (List α)
  | [], _ => none
  | x :: rest, i =>
    if getId x = i then some rest
    else (removeById getId rest i).map (x :: ·)

/-- `storage.rs` `update_menu_item` (lines 413-444): on an id miss the typed
result is `AppError::Storage` with a free-text message. -/
def st_update_menu_item (st : StorageState) (id : Nat) (item : MenuItem) :
    Except AppError StorageState :=
  match replaceById MenuItem.id st.menu_items id item with
  | some items => .ok { st with menu_items := items }
  | none => .error (.Storage ("Menu item with id " ++ toString id ++ " not found"))

/-- `storage.rs` `delete_menu_item` (lines 446-473). -/
def st_delete_menu_item (st : StorageState) (id : Nat) :
    Except AppError StorageState :=
  match removeById MenuItem.id st.menu_items id with
  | some items => .ok { st with menu_items := items }
  | none => .error (.Storage ("Menu item with id " ++ toString id ++ " not found"))

/-- `storage.rs` `update_menu_schedule` (lines 638-673): on an id miss the
typed result is `StorageError::Io` with `io::ErrorKind::NotFound`. -/
def st_update_menu_schedule (st : StorageState) (id : Nat) (s : MenuSchedule) :
    Except StorageError StorageState :=
  match replaceById MenuSchedule.id st.menu_schedules id s with
  | some l => .ok { st with menu_schedules := l }
  | none => .error (.Io .NotFoundKind ("Menu schedule with id " ++ toString id ++ " not found"))

/-- `storage.rs` `delete_menu_schedule` (lines 704-731). -/
def st_delete_menu_schedule (st : StorageState) (id : Nat) :
    Except StorageError StorageState :=
  match removeById MenuSchedule.id st.menu_schedules id with
  | some l => .ok { st with menu_schedules := l }
  | none => .error (.Io .NotFoundKind ("Menu schedule with id " ++ toString id ++ " not found"))

/-- `storage.rs` `add_menu_schedule` (lines 590-599); the snapshot rewrite is
abstracted, so the push always succeeds. -/
def st_add_menu_schedule (st : StorageState) (s : MenuSchedule) : StorageState :=
  { st with menu_schedules := st.menu_schedules ++ [s] }

/-! ## Schedule engine (`scheduler.rs`) -/

/-- `chrono::Duration::days(1)` on the UTC timeline, in seconds. -/
def oneDay : Int := 86400

/-- `scheduler.rs` `has_schedule_conflict` (lines 10-26): first other schedule
(any status, any preset) whose closed `[start, end]` interval overlaps. -/
def has_schedule_conflict (schedule : MenuSchedule) :
    List MenuSchedule → Option MenuSchedule
  | [] => none
  | existing :: rest =>
    if existing.id = schedule.id then has_schedule_conflict schedule rest
    else if schedule.start_time ≤ existing.end_time ∧ schedule.end_time ≥ existing.start_time then
      some existing
    else has_schedule_conflict schedule rest

/-- `scheduler.rs` `is_schedule_due` (lines 142-144). -/
def is_schedule_due (schedule : MenuSchedule) (now : Int) : Bool :=
  decide (schedule.start_time ≤ now)

/-- `scheduler.rs` `calculate_next_occurrence` (lines 240-267).  The `Monthly`
arm delegates to `addMonth`, an abstract stand-in for chrono's calendar-aware
`checked_add_months` on the naive date (returning `none` when the calendar
advance is undefined); `Daily` and `Weekly` are exact. -/
def calculate_next_occurrence (addMonth : Int → Option Int) (schedule : MenuSchedule) :
    Option Int :=
  match schedule.recurrence with
  | .Daily => some (schedule.start_time + oneDay)
  | .Weekly => some (schedule.start_time + 7 * oneDay)
  | .Monthly => addMonth schedule.start_time
  | .Custom => none

/-- The availability assignment of one item inside the item loop of
`scheduler.rs` `execute_schedule` (lines 174-179). -/
def setAvail (preset : MenuPreset) (item : MenuItem) : MenuItem :=
  if preset.menu_item_ids.contains item.id then { item with is_available := true }
  else { item with is_available := false }

/-- The item loop of `scheduler.rs` `execute_schedule` (lines 174-181): walk
the item snapshot, force availability from preset membership, write each item
back; an `update_menu_item` error aborts the loop (`?`), keeping the state
mutated so far. -/
def execItemsLoop (preset : MenuPreset) :
    List MenuItem → StorageState → StorageState × Option AppError
  | [], st => (st, none)
  | item :: rest, st =>
    match st_update_menu_item st (setAvail preset item).id (setAvail preset item) with
    | .error e => (st, some e)
    | .ok st1 => execItemsLoop preset rest st1

/-- The in-place mutation at the start of `execute_schedule` (lines 152-153):
status forced to `Active`, `updated_at` refreshed. -/
def activated (now : Int) (s : MenuSchedule) : MenuSchedule :=
  { s with status := ScheduleStatus.Active, updated_at := now }

/-- The post-execution re-evaluation of `execute_schedule` (lines 183-227),
applied to the `Active`-marked local schedule value. -/
def exec_final (addMonth : Int → Option Int) (now : Int) (schedule : MenuSchedule) :
    MenuSchedule :=
  if schedule.end_time ≤ now then
    { schedule with status := ScheduleStatus.Ended, updated_at := now,
                    error_message := none }
  else
    match schedule.recurrence with
    | .Daily | .Weekly | .Monthly =>
      match calculate_next_occurrence addMonth schedule with
      | some next =>
        if next ≤ schedule.end_time then
          { schedule with start_time := next, status := ScheduleStatus.Pending,
                          updated_at := now, error_message := none }
        else
          { schedule with status := ScheduleStatus.Ended, updated_at := now,
                          error_message := some "Next occurrence is after schedule end time" }
      | none =>
        { schedule with status := ScheduleStatus.Ended, updated_at := now,
                        error_message := some "Cannot calculate next occurrence" }
    | .Custom =>
      { schedule with status := ScheduleStatus.Ended, updated_at := now,
                      error_message := none }

/-- `scheduler.rs` `execute_schedule` (lines 147-237).  Returns the resulting
storage state and, on failure, the display string of the boxed error; as with
the shared store in the source, mutations already performed remain visible in
the returned state even when the pass fails. -/
def execute_schedule (addMonth : Int → Option Int) (now : Int) (st : StorageState)
    (s0 : MenuSchedule) : StorageState × Option String :=
  match st_update_menu_schedule st s0.id (activated now s0) with
  | .error e => (st, some e.display)
  | .ok st1 =>
    match st1.menu_presets.find? (fun p => p.id == s0.preset_id) with
    | none =>
      (st1, some ("Preset with id " ++ toString s0.preset_id
        ++ " not found for schedule " ++ toString s0.id))
    | some preset =>
      match execItemsLoop preset st1.menu_items st1 with
      | (st2, some e) => (st2, some e.display)
      | (st2, none) =>
        match st_update_menu_schedule st2 s0.id (exec_final addMonth now (activated now s0)) with
        | .error e => (st2, some e.display)
        | .ok st3 => (st3, none)

/-- The `Conflicted` record written by the tick (lines 84-89): status
`Conflicted`, message naming the conflicting schedule, `updated_at`
unchanged. -/
def conflictedOf (schedule conflicting : MenuSchedule) : MenuSchedule :=
  { schedule with
    status := ScheduleStatus.Conflicted,
    error_message := some ("Conflicts with schedule \x27" ++ conflicting.name
      ++ "\x27 (" ++ toString conflicting.id ++ ")") }

/-- The `Failed` record written by the tick (lines 110-112): status `Failed`,
the error display as message, `updated_at` unchanged. -/
def failedOf (schedule : MenuSchedule) (e : String) : MenuSchedule :=
  { schedule with status := ScheduleStatus.Failed, error_message := some e }

/-- The `Ended` record written by the tick for an overdue `Active` schedule
(lines 127-130) and by `exec_final` when the end time has passed. -/
def endedOf (now : Int) (schedule : MenuSchedule) : MenuSchedule :=
  { schedule with status := ScheduleStatus.Ended, updated_at := now,
                  error_message := none }

/-- The loop body of `scheduler.rs` `check_and_execute_schedules` (lines
69-136) for one schedule of the tick-start snapshot: conflict-check and
execute due `Pending` schedules, end overdue `Active` ones; a failed status
write is logged and the state kept. -/
def processOne (addMonth : Int → Option Int) (now : Int) (snapshot : List MenuSchedule)
    (st : StorageState) (schedule : MenuSchedule) : StorageState :=
  if schedule.status = ScheduleStatus.Pending then
    if is_schedule_due schedule now then
      match has_schedule_conflict schedule snapshot with
      | some conflicting =>
        match st_update_menu_schedule st schedule.id (conflictedOf schedule conflicting) with
        | .ok st1 => st1
        | .error _ => st
      | none =>
        match execute_schedule addMonth now st schedule with
        | (st1, none) => st1
        | (st1, some e) =>
          match st_update_menu_schedule st1 schedule.id (failedOf schedule e) with
          | .ok st2 => st2
          | .error _ => st1
    else st
  else if schedule.status = ScheduleStatus.Active then
    if schedule.end_time ≤ now then
      match st_update_menu_schedule st schedule.id (endedOf now schedule) with
      | .ok st1 => st1
      | .error _ => st
    else st
  else st

/-- `scheduler.rs` `check_and_execute_schedules` (lines 59-139): one tick of
the engine, folding the loop body over the tick-start snapshot of the schedule
collection. -/
def check_and_execute_schedules (addMonth : Int → Option Int) (now : Int)
    (st : StorageState) : StorageState :=
  st.menu_schedules.foldl (processOne addMonth now st.menu_schedules) st

/-! ## Schedule handlers (`handlers.rs`) -/

/-- `handlers.rs` `CreateMenuScheduleRequest` (lines 96-105): recurrence and
status arrive as strings and are converted by the handler. -/
structure CreateMenuScheduleRequest where
  preset_id : Nat
  name : String
  description : String
  start_time : Int
  end_time : Int
  recurrence : String
  status : String
deriving DecidableEq, Repr

/-- `handlers.rs` `UpdateMenuScheduleRequest` (lines 107-116). -/
structure UpdateMenuScheduleRequest where
  preset_id : Option Nat
  name : Option String
  description : Option String
  start_time : Option Int
  end_time : Option Int
  recurrence : Option String
  status : Option String
deriving DecidableEq, Repr

/-- `handlers.rs` `ValidateScheduleRequest` (lines 118-128). -/
structure ValidateScheduleRequest where
  preset_id : Option Nat
  name : Option String
  description : Option String
  start_time : Int
  end_time : Int
  recurrence : Option String
  status : Option String
  schedule_id : Option Nat
deriving DecidableEq, Repr

/-- The `ValidationResponse` returned by `handlers.rs` `validate_schedule`
(lines 817-822). -/
structure ValidationResponse where
  is_valid : Bool
  conflicts : List Nat
  message : Option String
deriving DecidableEq, Repr

/-- The recurrence-string conversion shared by the create and update handlers
(`handlers.rs` lines 538-544 and 661-668). -/
def parse_recurrence (s : String) : Option ScheduleRecurrence :=
  if s = "Daily" then some .Daily
  else if s = "Weekly" then some .Weekly
  else if s = "Monthly" then some .Monthly
  else if s = "Custom" then some .Custom
  else none

/-- The status-string conversion shared by the create and update handlers
(`handlers.rs` lines 546-552 and 673-679): only `Active`, `Inactive` and
`Pending` are accepted. -/
def parse_status (s : String) : Option ScheduleStatus :=
  if s = "Active" then some .Active
  else if s = "Inactive" then some .Inactive
  else if s = "Pending" then some .Pending
  else none

/-- The three-disjunct time-overlap test of `handlers.rs` (create handler
lines 560-562 and validate handler lines 803-805), with `(es, ee)` the
existing schedule's interval and `(bs, be)` the request's. -/
def overlap3 (es ee bs be : Int) : Bool :=
  (decide (es ≤ bs) && decide (ee ≥ bs)) ||
  (decide (es ≤ be) && decide (ee ≥ be)) ||
  (decide (es ≥ bs) && decide (ee ≤ be))

/-- The per-schedule conflict condition of the create handler (`handlers.rs`
lines 558-567): same preset and three-disjunct overlap. -/
def creation_conflict (req : CreateMenuScheduleRequest) (e : MenuSchedule) : Bool :=
  e.preset_id == req.preset_id
    && overlap3 e.start_time e.end_time req.start_time req.end_time

/-- The `MenuSchedule` record assembled by `create_menu_schedule` (lines
569-580) once its validations have passed: everything, the status included,
is taken from the request. -/
def newScheduleOf (req : CreateMenuScheduleRequest) (newId : Nat) (now : Int)
    (recurrence : ScheduleRecurrence) (status : ScheduleStatus) : MenuSchedule :=
  { id := newId, preset_id := req.preset_id, name := req.name,
    description := req.description, start_time := req.start_time,
    end_time := req.end_time, recurrence := recurrence, status := status,
    created_at := now, updated_at := now, error_message := none }

/-- `handlers.rs` `create_menu_schedule` (lines 515-586), as a pure function:
`newId` stands for `Uuid::new_v4()` and `now` for `Utc::now()`; session
authentication is outside the model.  Note that the handler performs no
`end_time > start_time` check. -/
def create_menu_schedule (st : StorageState) (req : CreateMenuScheduleRequest)
    (newId : Nat) (now : Int) : Except AppError (StorageState × MenuSchedule) :=
  if !st.menu_presets.any (fun p => p.id == req.preset_id) then
    .error (.Validation ("Menu preset with id " ++ toString req.preset_id ++ " not found"))
  else
    match parse_recurrence req.recurrence with
    | none => .error (.Validation "Invalid recurrence value")
    | some recurrence =>
      match parse_status req.status with
      | none => .error (.Validation "Invalid status value")
      | some status =>
        match st.menu_schedules.find? (creation_conflict req) with
        | some conflictSched =>
          .error (.Validation ("Schedule conflict with existing schedule id "
            ++ toString conflictSched.id))
        | none =>
          .ok (st_add_menu_schedule st (newScheduleOf req newId now recurrence status),
               newScheduleOf req newId now recurrence status)

/-- `handlers.rs` `update_menu_schedule` (lines 612-688), as a pure function;
like the create handler it performs no `end_time > start_time` check and
accepts any of the statuses `Active`, `Inactive`, `Pending`. -/
def update_menu_schedule_handler (st : StorageState) (schedule_id : Nat)
    (req : UpdateMenuScheduleRequest) (now : Int) :
    Except AppError (StorageState × MenuSchedule) :=
  match st.menu_schedules.find? (fun s => s.id == schedule_id) with
  | none =>
    .error (.NotFound ("Menu schedule with id " ++ toString schedule_id ++ " not found"))
  | some existing0 =>
    let step1 : Except AppError MenuSchedule :=
      match req.preset_id with
      | none => .ok existing0
      | some pid =>
        if st.menu_presets.any (fun p => p.id == pid) then
          .ok { existing0 with preset_id := pid }
        else .error (.Validation ("Menu preset with id " ++ toString pid ++ " not found"))
    match step1 with
    | .error e => .error e
    | .ok s1 =>
      let s2 := { s1 with
        name := req.name.getD s1.name,
        description := req.description.getD s1.description,
        start_time := req.start_time.getD s1.start_time,
        end_time := req.end_time.getD s1.end_time }
      let step3 : Except AppError MenuSchedule :=
        match req.recurrence with
        | none => .ok s2
        | some rs =>
          match parse_recurrence rs with
          | some r => .ok { s2 with recurrence := r }
          | none => .error (.Validation "Invalid recurrence value")
      match step3 with
      | .error e => .error e
      | .ok s3 =>
        let step4 : Except AppError MenuSchedule :=
          match req.status with
          | none => .ok s3
          | some ss =>
            match parse_status ss with
            | some stat => .ok { s3 with status := stat }
            | none => .error (.Validation "Invalid status value")
        match step4 with
        | .error e => .error e
        | .ok s4 =>
          let s5 := { s4 with updated_at := now }
          match st_update_menu_schedule st schedule_id s5 with
          | .error e => .error (.Storage e.display)
          | .ok st1 => .ok (st1, s5)

/-- The per-schedule conflict condition of `handlers.rs` `validate_schedule`
(lines 794-815): skip the schedule being updated, three-disjunct overlap, and
restrict to the same preset only when a preset id is supplied. -/
def validation_conflict (v : ValidateScheduleRequest) (s : MenuSchedule) : Bool :=
  (match v.schedule_id with
   | some i => !(s.id == i)
   | none => true)
  && overlap3 s.start_time s.end_time v.start_time v.end_time
  && (match v.preset_id with
      | some pid => s.preset_id == pid
      | none => true)

/-- `handlers.rs` `validate_schedule` (lines 724-836), as a pure function.
This advisory endpoint is the only place the `end_time > start_time` rule is
checked; it stores nothing. -/
def validate_schedule_handler (st : StorageState) (v : ValidateScheduleRequest) :
    Except AppError ValidationResponse :=
  if v.end_time ≤ v.start_time then
    .error (.Validation "End time must be after start time")
  else
    let presetCheck : Except AppError Unit :=
      match v.preset_id with
      | none => .ok ()
      | some pid =>
        if st.menu_presets.any (fun p => p.id == pid) then .ok ()
        else .error (.Validation ("Menu preset with id " ++ toString pid ++ " not found"))
    match presetCheck with
    | .error e => .error e
    | .ok _ =>
      let nameCheck : Except AppError Unit :=
        match v.name with
        | none => .ok ()
        | some n =>
          if n.trim = "" then .error (.Validation "Schedule name cannot be empty")
          else .ok ()
      match nameCheck with
      | .error e => .error e
      | .ok _ =>
        let descCheck : Except AppError Unit :=
          match v.description with
          | none => .ok ()
          | some d =>
            if d.trim = "" then .error (.Validation "Schedule description cannot be empty")
            else .ok ()
        match descCheck with
        | .error e => .error e
        | .ok _ =>
          let recCheck : Except AppError Unit :=
            match v.recurrence with
            | none => .ok ()
            | some r =>
              if (parse_recurrence r).isSome then .ok ()
              else .error (.Validation "Invalid recurrence value")
          match recCheck with
          | .error e => .error e
          | .ok _ =>
            let statusCheck : Except AppError Unit :=
              match v.status with
              | none => .ok ()
              | some s =>
                if (parse_status s).isSome then .ok ()
                else .error (.Validation "Invalid status value")
            match statusCheck with
            | .error e => .error e
            | .ok _ =>
              let conflicts := (st.menu_schedules.filter (validation_conflict v)).map (·.id)
              let has_conflicts := !conflicts.isEmpty
              .ok { is_valid := !has_conflicts, conflicts := conflicts,
                    message := if has_conflicts
                      then some "Schedule conflicts with existing schedules"
                      else none }

/-! ## Small observers used to state results -/

/-- Decidable equality of handler results, for evaluating concrete calls. -/
instance exceptDecEq {ε α : Type} [DecidableEq ε] [DecidableEq α] :
    DecidableEq (Except ε α) := fun x y =>
  match x, y with
  | .ok a, .ok b =>
    if h : a = b then isTrue (by rw [h])
    else isFalse (fun hc => h (by injection hc))
  | .error a, .error b =>
    if h : a = b then isTrue (by rw [h])
    else isFalse (fun hc => h (by injection hc))
  | .ok _, .error _ => isFalse (fun hc => Except.noConfusion hc)
  | .error _, .ok _ => isFalse (fun hc => Except.noConfusion hc)

/-- The schedule value returned by a successful schedule-handler call. -/
def createdSchedule : Except AppError (StorageState × MenuSchedule) → Option MenuSchedule
  | .ok (_, s) => some s
  | .error _ => none

/-- The status of the schedule returned by a successful handler call. -/
def createdStatus (r : Except AppError (StorageState × MenuSchedule)) :
    Option ScheduleStatus :=
  (createdSchedule r).map MenuSchedule.status

/-- The storage state left by a successful schedule-handler call. -/
def resultState : Except AppError (StorageState × MenuSchedule) → Option StorageState
  | .ok (st, _) => some st
  | .error _ => none

/-- First stored schedule with the given id. -/
def findSched (st : StorageState) (i : Nat) : Option MenuSchedule :=
  st.menu_schedules.find? (fun s => s.id == i)

/-- The schedule with the given id persisted by a successful handler call. -/
def persistedSchedule (r : Except AppError (StorageState × MenuSchedule)) (i : Nat) :
    Option MenuSchedule :=
  (resultState r).bind (fun st => findSched st i)

/-! ## Concrete fixtures

Small concrete states used by counterexamples and witnesses. -/

/-- A concrete stand-in for the calendar-aware one-month advance, used where a
tick must be evaluated on concrete input (no claim exercises `Monthly`). -/
def fxAddMonth : Int → Option Int := fun t => some (t + 30 * oneDay)

/-- Preset P of the end-to-end scenario: selects items 1 (A) and 2 (B). -/
def fxPresetP : MenuPreset :=
  { id := 1, name := "P", description := "preset P", menu_item_ids := [1, 2],
    created_at := 0, updated_at := 0 }

/-- Item A, initially unavailable. -/
def fxItemA : MenuItem :=
  { id := 1, name := "A", category := .Mains, description := "", allergens := [],
    is_available := false }

/-- Item B, initially unavailable. -/
def fxItemB : MenuItem :=
  { id := 2, name := "B", category := .Sides, description := "", allergens := [],
    is_available := false }

/-- Item C, initially unavailable and outside preset P. -/
def fxItemC : MenuItem :=
  { id := 3, name := "C", category := .Desserts, description := "", allergens := [],
    is_available := false }

/-- Schedule S of the end-to-end scenario: references preset P, starts at 1000,
ends two hours later, recurrence `Custom`, status `Pending`. -/
def fxSchedS : MenuSchedule :=
  { id := 5, preset_id := 1, name := "S", description := "", start_time := 1000,
    end_time := 8200, recurrence := .Custom, status := .Pending, created_at := 0,
    updated_at := 0, error_message := none }

/-- Storage state of the end-to-end scenario. -/
def fxStateC6 : StorageState :=
  { menu_items := [fxItemA, fxItemB, fxItemC], menu_presets := [fxPresetP],
    menu_schedules := [fxSchedS] }

/-- Preset P2 for the conflict scenario. -/
def fxPresetP2 : MenuPreset :=
  { id := 2, name := "P2", description := "preset P2", menu_item_ids := [3],
    created_at := 0, updated_at := 0 }

/-- Conflict-scenario schedule S1: interval 0..7200 (0-2h), preset 1, due. -/
def fxSchedS1 : MenuSchedule :=
  { id := 10, preset_id := 1, name := "S1", description := "", start_time := 0,
    end_time := 7200, recurrence := .Custom, status := .Pending, created_at := 0,
    updated_at := 0, error_message := none }

/-- Conflict-scenario schedule S2: interval 3600..10800 (1-3h), preset 2, due. -/
def fxSchedS2 : MenuSchedule :=
  { id := 20, preset_id := 2, name := "S2", description := "", start_time := 3600,
    end_time := 10800, recurrence := .Custom, status := .Pending, created_at := 0,
    updated_at := 0, error_message := none }

/-- Storage state of the conflict scenario (both schedules due at now = 3600). -/
def fxStateC3 : StorageState :=
  { menu_items := [fxItemA, fxItemB, fxItemC], menu_presets := [fxPresetP, fxPresetP2],
    menu_schedules := [fxSchedS1, fxSchedS2] }

/-- A schedule already `Conflicted` whose end time (500) is before now. -/
def fxSchedConf : MenuSchedule :=
  { fxSchedS with status := .Conflicted, end_time := 500, error_message := some "x" }

/-- Storage state holding only the stale `Conflicted` schedule. -/
def fxStateC8 : StorageState :=
  { menu_items := [], menu_presets := [fxPresetP], menu_schedules := [fxSchedConf] }

/-- An `Active` schedule whose end time equals the witness tick time 8200. -/
def fxSchedActive : MenuSchedule :=
  { fxSchedS with status := .Active, error_message := some "stale" }

/-- Storage state holding only the `Active` schedule. -/
def fxStateActive : StorageState :=
  { menu_items := [], menu_presets := [fxPresetP], menu_schedules := [fxSchedActive] }

/-- Storage state for creation requests: one preset, no schedules. -/
def fxStateCreate : StorageState :=
  { menu_items := [], menu_presets := [fxPresetP], menu_schedules := [] }

/-- A creation request demanding status `Inactive` (times valid). -/
def fxReqInactive : CreateMenuScheduleRequest :=
  { preset_id := 1, name := "N", description := "D", start_time := 0, end_time := 3600,
    recurrence := "Daily", status := "Inactive" }

/-- A creation request demanding status `Active` (times valid). -/
def fxReqActive : CreateMenuScheduleRequest :=
  { fxReqInactive with status := "Active" }

/-- A creation request with `end_time = start_time` (invalid per the spec). -/
def fxReqDegenerate : CreateMenuScheduleRequest :=
  { fxReqInactive with start_time := 0, end_time := 0, status := "Pending" }

/-- The empty storage state. -/
def fxStateEmpty : StorageState :=
  { menu_items := [], menu_presets := [], menu_schedules := [] }

/-- Storage state with one preset and one stored schedule on preset 1 over
0..7200, against which a same-preset creation request conflicts. -/
def fxStateC10 : StorageState :=
  { menu_items := [], menu_presets := [fxPresetP], menu_schedules := [fxSchedS1] }

/-- A due `Daily` schedule whose end time is far in the future. -/
def fxSchedDaily : MenuSchedule :=
  { fxSchedS with recurrence := .Daily, end_time := 1000000 }

/-- Storage state holding only the `Daily` schedule. -/
def fxStateDaily : StorageState :=
  { fxStateC6 with menu_schedules := [fxSchedDaily] }

/-- A validation request with `end_time = start_time`. -/
def fxValReqDegenerate : ValidateScheduleRequest :=
  { preset_id := some 1, name := some "N", description := some "D", start_time := 0,
    end_time := 0, recurrence := some "Daily", status := some "Pending",
    schedule_id := none }

/-! ## Counterexamples on concrete states -/

/-- C1 counterexample: the creation handler accepts and stores status
`Inactive`, a status outside the five-state machine of §4.2 — so a status
outside that machine is reachable by a single public operation. -/
theorem C1_inactive_reachable_cex :
    createdStatus (create_menu_schedule fxStateCreate fxReqInactive 42 0)
        = some ScheduleStatus.Inactive
      ∧ ScheduleStatus.Inactive ≠ ScheduleStatus.Pending
      ∧ ScheduleStatus.Inactive ≠ ScheduleStatus.Active
      ∧ ScheduleStatus.Inactive ≠ ScheduleStatus.Ended
      ∧ ScheduleStatus.Inactive ≠ ScheduleStatus.Conflicted
      ∧ ScheduleStatus.Inactive ≠ ScheduleStatus.Failed := by decide

/-- C2 counterexample: a creation request with valid times (`0 < 3600`) but
status field `"Active"` is accepted and the stored schedule is `Active`, not
`Pending`. -/
theorem C2_created_active_cex :
    fxReqActive.start_time < fxReqActive.end_time
      ∧ createdStatus (create_menu_schedule fxStateCreate fxReqActive 42 0)
          = some ScheduleStatus.Active
      ∧ ScheduleStatus.Active ≠ ScheduleStatus.Pending := by decide

/-- C3 counterexample: with S1 (0..7200, preset 1) and S2 (3600..10800,
preset 2) both `Pending` and due at now = 3600, the tick marks S1 `Conflicted`
(naming S2) instead of executing it, and the menu items are untouched. -/
theorem C3_s1_conflicted_cex :
    findSched (check_and_execute_schedules fxAddMonth 3600 fxStateC3) 10
        = some { fxSchedS1 with
                 status := ScheduleStatus.Conflicted,
                 error_message := some "Conflicts with schedule \x27S2\x27 (20)" }
      ∧ ScheduleStatus.Conflicted ≠ ScheduleStatus.Active
      ∧ (check_and_execute_schedules fxAddMonth 3600 fxStateC3).menu_items
          = fxStateC3.menu_items := by decide

/-- C4 counterexample: a creation request with `end_time = start_time = 0` is
accepted and the degenerate schedule is persisted, violating the claimed
invariant `end_time > start_time`. -/
theorem C4_degenerate_persisted_cex :
    (persistedSchedule (create_menu_schedule fxStateCreate fxReqDegenerate 42 0) 42).map
        (fun s => (s.start_time, s.end_time)) = some (0, 0) := by decide

/-- C6 counterexample: in the end-to-end scenario (preset P selecting A and B,
schedule S with recurrence `Custom` due at now = 1000, ending at 8200), the
status after one tick is `Ended`, not `Active`: `Custom` schedules are ended
immediately after their single execution. -/
theorem C6_status_after_tick_cex :
    (findSched (check_and_execute_schedules fxAddMonth 1000 fxStateC6) 5).map
        MenuSchedule.status = some ScheduleStatus.Ended
      ∧ ScheduleStatus.Ended ≠ ScheduleStatus.Active := by decide

/-- C8 counterexample: a stored schedule in status `Conflicted` with
`end_time = 500 ≤ now = 1000` is left untouched by the tick — it does not
transition to `Ended`, refuting the claim for schedules that are not
`Active` (or executing) at tick time. -/
theorem C8_conflicted_not_ended_cex :
    fxSchedConf.end_time ≤ 1000
      ∧ (findSched (check_and_execute_schedules fxAddMonth 1000 fxStateC8) 5).map
          MenuSchedule.status = some ScheduleStatus.Conflicted
      ∧ ScheduleStatus.Conflicted ≠ ScheduleStatus.Ended := by decide

/-- C9 counterexample: an id miss on `update_menu_item` surfaces as
`AppError::Storage` — the very constructor internal I/O and serialization
failures are converted to — not as the typed `NotFound` variant, so the caller
cannot distinguish the two cases without reading the free-text message. -/
theorem C9_untyped_notfound_cex :
    st_update_menu_item fxStateEmpty 7 fxItemA
        = .error (AppError.Storage "Menu item with id 7 not found")
      ∧ AppError.Storage "Menu item with id 7 not found"
          ≠ AppError.NotFound "Menu item with id 7 not found"
      ∧ appError_from_storage (StorageError.Io .OtherKind "disk full")
          = AppError.Storage "disk full" := by decide

/-- C6 (amended): in the end-to-end scenario, one tick at now = 1000 makes A
and B available and leaves C unavailable, and S ends in status `Ended` — not
`Active`, since a `Custom` schedule is ended right after its single execution
(§4.2 rule 4); a further tick past `end_time` leaves it `Ended`. -/
theorem C6_end_to_end :
    (check_and_execute_schedules fxAddMonth 1000 fxStateC6).menu_items.map
        (fun it => (it.id, it.is_available)) = [(1, true), (2, true), (3, false)]
      ∧ (findSched (check_and_execute_schedules fxAddMonth 1000 fxStateC6) 5).map
          MenuSchedule.status = some ScheduleStatus.Ended
      ∧ (findSched (check_and_execute_schedules fxAddMonth 9000
            (check_and_execute_schedules fxAddMonth 1000 fxStateC6)) 5).map
          MenuSchedule.status = some ScheduleStatus.Ended := by decide

/-! ## Generic lemmas about the store's positional replace -/

theorem replaceById_none_of_absent {α : Type} (getId : α → Nat) :
    ∀ (l : List α) (i : Nat) (v : α), (∀ x ∈ l, getId x ≠ i) →
      replaceById getId l i v = none := by
  intro l i v h
  induction l with
  | nil => rfl
  | cons x rest ih =>
    have hx : getId x ≠ i := h x (by simp)
    simp only [replaceById, if_neg hx]
    rw [ih (fun y hy => h y (by simp [hy]))]
    rfl

theorem replaceById_isSome_of_mem {α : Type} (getId : α → Nat) :
    ∀ (l : List α) (i : Nat) (v x : α), x ∈ l → getId x = i →
      ∃ l', replaceById getId l i v = some l' := by
  intro l i v x hx hid
  induction l with
  | nil => simp at hx
  | cons y rest ih =>
    by_cases hy : getId y = i
    · exact ⟨v :: rest, by simp [replaceById, hy]⟩
    · rcases List.mem_cons.mp hx with h | h
      · exact absurd (h ▸ hid) hy
      · rcases ih h with ⟨l', hl'⟩
        exact ⟨y :: l', by simp [replaceById, hy, hl']⟩

theorem replaceById_cons_shape {α : Type} (getId : α → Nat) (y : α) (rest : List α)
    (i : Nat) (v : α) (l' : List α) (hy : getId y ≠ i)
    (h : replaceById getId (y :: rest) i v = some l') :
    ∃ t, replaceById getId rest i v = some t ∧ l' = y :: t := by
  rw [replaceById, if_neg hy] at h
  cases hrec : replaceById getId rest i v with
  | none => rw [hrec] at h; simp at h
  | some t =>
    rw [hrec] at h
    simp at h
    exact ⟨t, rfl, h.symm⟩

theorem replaceById_map_getId {α : Type} (getId : α → Nat) :
    ∀ (l : List α) (i : Nat) (v : α) (l' : List α),
      replaceById getId l i v = some l' → getId v = i →
        l'.map getId = l.map getId := by
  intro l
  induction l with
  | nil => intro i v l' h _; simp [replaceById] at h
  | cons x rest ih =>
    intro i v l' h hv
    by_cases hx : getId x = i
    · rw [replaceById, if_pos hx] at h
      cases h
      simp [hv, hx]
    · rcases replaceById_cons_shape getId x rest i v l' hx h with ⟨t, ht, rfl⟩
      simp [ih i v t ht hv]

theorem replaceById_mem {α : Type} (getId : α → Nat) :
    ∀ (l : List α) (i : Nat) (v : α) (l' : List α) (x : α),
      replaceById getId l i v = some l' → x ∈ l' → x ∈ l ∨ x = v := by
  intro l
  induction l with
  | nil => intro i v l' x h _; simp [replaceById] at h
  | cons y rest ih =>
    intro i v l' x h hx
    by_cases hy : getId y = i
    · rw [replaceById, if_pos hy] at h
      cases h
      rcases List.mem_cons.mp hx with h | h
      · exact Or.inr h
      · exact Or.inl (by simp [h])
    · rcases replaceById_cons_shape getId y rest i v l' hy h with ⟨t, ht, rfl⟩
      rcases List.mem_cons.mp hx with h | h
      · exact Or.inl (by simp [h])
      · rcases ih i v t x ht h with h2 | h2
        · exact Or.inl (by simp [h2])
        · exact Or.inr h2

theorem replaceById_find_self {α : Type} (getId : α → Nat) :
    ∀ (l : List α) (i : Nat) (v : α) (l' : List α),
      replaceById getId l i v = some l' → getId v = i →
        l'.find? (fun x => getId x == i) = some v := by
  intro l
  induction l with
  | nil => intro i v l' h _; simp [replaceById] at h
  | cons y rest ih =>
    intro i v l' h hv
    by_cases hy : getId y = i
    · rw [replaceById, if_pos hy] at h
      cases h
      simp [List.find?, hv]
    · rcases replaceById_cons_shape getId y rest i v l' hy h with ⟨t, ht, rfl⟩
      have hb : (getId y == i) = false := by simp [hy]
      simp [List.find?, hb, ih i v t ht hv]

theorem replaceById_find_other {α : Type} (getId : α → Nat) :
    ∀ (l : List α) (i : Nat) (v : α) (l' : List α) (j : Nat),
      replaceById getId l i v = some l' → getId v = i → j ≠ i →
        l'.find? (fun x => getId x == j) = l.find? (fun x => getId x == j) := by
  intro l
  induction l with
  | nil => intro i v l' j h _ _; simp [replaceById] at h
  | cons y rest ih =>
    intro i v l' j h hv hj
    by_cases hy : getId y = i
    · rw [replaceById, if_pos hy] at h
      cases h
      have h1 : (getId v == j) = false := by
        simp [hv]
        exact fun hc => hj hc.symm
      have h2 : (getId y == j) = false := by
        simp [hy]
        exact fun hc => hj hc.symm
      simp [List.find?, h1, h2]
    · rcases replaceById_cons_shape getId y rest i v l' hy h with ⟨t, ht, rfl⟩
      by_cases hyj : getId y = j
      · simp [List.find?, hyj]
      · have hb : (getId y == j) = false := by simp [hyj]
        simp [List.find?, hb, ih i v t j ht hv hj]

/-! ## Facts about the store operations -/

theorem st_update_sched_ok_parts (st : StorageState) (i : Nat) (v : MenuSchedule)
    (st1 : StorageState) (h : st_update_menu_schedule st i v = .ok st1) :
    st1.menu_items = st.menu_items ∧ st1.menu_presets = st.menu_presets
      ∧ replaceById MenuSchedule.id st.menu_schedules i v = some st1.menu_schedules := by
  unfold st_update_menu_schedule at h
  cases hrep : replaceById MenuSchedule.id st.menu_schedules i v with
  | none => rw [hrep] at h; exact absurd h (by simp)
  | some l =>
    rw [hrep] at h
    have hst : st1 = { st with menu_schedules := l } := by
      injection h with h2
      exact h2.symm
    subst hst
    exact ⟨rfl, rfl, rfl⟩

theorem st_update_sched_exists (st : StorageState) (i : Nat) (v : MenuSchedule)
    (x : MenuSchedule) (hx : x ∈ st.menu_schedules) (hid : x.id = i) :
    ∃ st1, st_update_menu_schedule st i v = .ok st1 := by
  rcases replaceById_isSome_of_mem MenuSchedule.id st.menu_schedules i v x hx hid with ⟨l, hl⟩
  exact ⟨{ st with menu_schedules := l }, by unfold st_update_menu_schedule; rw [hl]⟩

theorem st_update_sched_ids (st : StorageState) (i : Nat) (v : MenuSchedule)
    (st1 : StorageState) (h : st_update_menu_schedule st i v = .ok st1) (hv : v.id = i) :
    st1.menu_schedules.map MenuSchedule.id = st.menu_schedules.map MenuSchedule.id := by
  rcases st_update_sched_ok_parts st i v st1 h with ⟨_, _, hrep⟩
  exact replaceById_map_getId MenuSchedule.id st.menu_schedules i v st1.menu_schedules hrep hv

theorem st_update_sched_find_self (st : StorageState) (i : Nat) (v : MenuSchedule)
    (st1 : StorageState) (h : st_update_menu_schedule st i v = .ok st1) (hv : v.id = i) :
    findSched st1 i = some v := by
  rcases st_update_sched_ok_parts st i v st1 h with ⟨_, _, hrep⟩
  exact replaceById_find_self MenuSchedule.id st.menu_schedules i v st1.menu_schedules hrep hv

theorem st_update_sched_find_other (st : StorageState) (i : Nat) (v : MenuSchedule)
    (st1 : StorageState) (j : Nat) (h : st_update_menu_schedule st i v = .ok st1)
    (hv : v.id = i) (hj : j ≠ i) :
    findSched st1 j = findSched st j := by
  rcases st_update_sched_ok_parts st i v st1 h with ⟨_, _, hrep⟩
  exact replaceById_find_other MenuSchedule.id st.menu_schedules i v st1.menu_schedules j
    hrep hv hj

theorem st_update_sched_mem (st : StorageState) (i : Nat) (v : MenuSchedule)
    (st1 : StorageState) (x : MenuSchedule) (h : st_update_menu_schedule st i v = .ok st1)
    (hx : x ∈ st1.menu_schedules) : x ∈ st.menu_schedules ∨ x = v := by
  rcases st_update_sched_ok_parts st i v st1 h with ⟨_, _, hrep⟩
  exact replaceById_mem MenuSchedule.id st.menu_schedules i v st1.menu_schedules x hrep hx

theorem st_update_item_ok_parts (st : StorageState) (i : Nat) (v : MenuItem)
    (st1 : StorageState) (h : st_update_menu_item st i v = .ok st1) :
    st1.menu_schedules = st.menu_schedules ∧ st1.menu_presets = st.menu_presets
      ∧ replaceById MenuItem.id st.menu_items i v = some st1.menu_items := by
  unfold st_update_menu_item at h
  cases hrep : replaceById MenuItem.id st.menu_items i v with
  | none => rw [hrep] at h; exact absurd h (by simp)
  | some l =>
    rw [hrep] at h
    have hst : st1 = { st with menu_items := l } := by
      injection h with h2
      exact h2.symm
    subst hst
    exact ⟨rfl, rfl, rfl⟩

theorem st_update_item_exists (st : StorageState) (i : Nat) (v : MenuItem)
    (x : MenuItem) (hx : x ∈ st.menu_items) (hid : x.id = i) :
    ∃ st1, st_update_menu_item st i v = .ok st1 := by
  rcases replaceById_isSome_of_mem MenuItem.id st.menu_items i v x hx hid with ⟨l, hl⟩
  exact ⟨{ st with menu_items := l }, by unfold st_update_menu_item; rw [hl]⟩

theorem st_update_item_ids (st : StorageState) (i : Nat) (v : MenuItem)
    (st1 : StorageState) (h : st_update_menu_item st i v = .ok st1) (hv : v.id = i) :
    st1.menu_items.map MenuItem.id = st.menu_items.map MenuItem.id := by
  rcases st_update_item_ok_parts st i v st1 h with ⟨_, _, hrep⟩
  exact replaceById_map_getId MenuItem.id st.menu_items i v st1.menu_items hrep hv

/-! ## Facts about the item loop of an execution pass -/

theorem setAvail_id (p : MenuPreset) (it : MenuItem) : (setAvail p it).id = it.id := by
  unfold setAvail
  split <;> rfl

theorem setAvail_eq (p : MenuPreset) (it : MenuItem) :
    setAvail p it = { it with is_available := p.menu_item_ids.contains it.id } := by
  unfold setAvail
  cases hc : p.menu_item_ids.contains it.id with
  | true => simp [hc]
  | false => simp [hc]

theorem execItemsLoop_presets_scheds (p : MenuPreset) :
    ∀ (items : List MenuItem) (st : StorageState),
      (execItemsLoop p items st).1.menu_schedules = st.menu_schedules
        ∧ (execItemsLoop p items st).1.menu_presets = st.menu_presets := by
  intro items
  induction items with
  | nil => intro st; exact ⟨rfl, rfl⟩
  | cons item rest ih =>
    intro st
    unfold execItemsLoop
    cases hu : st_update_menu_item st (setAvail p item).id (setAvail p item) with
    | error e => exact ⟨rfl, rfl⟩
    | ok st1 =>
      rcases st_update_item_ok_parts st (setAvail p item).id (setAvail p item) st1 hu with
        ⟨hs, hp, _⟩
      rcases ih st1 with ⟨ihs, ihp⟩
      exact ⟨by rw [ihs, hs], by rw [ihp, hp]⟩

theorem execItemsLoop_item_ids (p : MenuPreset) :
    ∀ (items : List MenuItem) (st : StorageState),
      (execItemsLoop p items st).1.menu_items.map MenuItem.id
        = st.menu_items.map MenuItem.id := by
  intro items
  induction items with
  | nil => intro st; rfl
  | cons item rest ih =>
    intro st
    unfold execItemsLoop
    cases hu : st_update_menu_item st (setAvail p item).id (setAvail p item) with
    | error e => rfl
    | ok st1 =>
      rw [ih st1,
        st_update_item_ids st (setAvail p item).id (setAvail p item) st1 hu rfl]

theorem execItemsLoop_ok (p : MenuPreset) :
    ∀ (items : List MenuItem) (st : StorageState),
      (∀ it ∈ items, it.id ∈ st.menu_items.map MenuItem.id) →
      (execItemsLoop p items st).2 = none := by
  intro items
  induction items with
  | nil => intro st _; rfl
  | cons item rest ih =>
    intro st hall
    have hid : item.id ∈ st.menu_items.map MenuItem.id := hall item (by simp)
    rcases List.mem_map.mp hid with ⟨x, hx, hxid⟩
    rcases st_update_item_exists st item.id (setAvail p item) x hx hxid with ⟨st1, h1⟩
    have h1' : st_update_menu_item st (setAvail p item).id (setAvail p item) = .ok st1 := by
      rw [setAvail_id]; exact h1
    unfold execItemsLoop
    rw [h1']
    refine ih st1 (fun it hit => ?_)
    rw [st_update_item_ids st (setAvail p item).id (setAvail p item) st1 h1' rfl]
    exact hall it (by simp [hit])

theorem replaceById_prefix_miss {α : Type} (getId : α → Nat) :
    ∀ (pre : List α) (suf : List α) (x v : α), (∀ y ∈ pre, getId y ≠ getId x) →
      replaceById getId (pre ++ x :: suf) (getId x) v = some (pre ++ v :: suf) := by
  intro pre
  induction pre with
  | nil => intro suf x v _; simp [replaceById]
  | cons y rest ih =>
    intro suf x v h
    have hy : getId y ≠ getId x := h y (by simp)
    simp only [List.cons_append, replaceById, if_neg hy, List.append_eq]
    rw [ih suf x v (fun z hz => h z (by simp [hz]))]
    rfl

theorem execItemsLoop_spec (p : MenuPreset) :
    ∀ (items pre : List MenuItem) (st : StorageState),
      st.menu_items = pre ++ items →
      ((pre ++ items).map MenuItem.id).Nodup →
      execItemsLoop p items st
        = ({ st with menu_items := pre ++ items.map (setAvail p) }, none) := by
  intro items
  induction items with
  | nil =>
    intro pre st hpre _
    have hp : pre = st.menu_items := by simpa using hpre.symm
    subst hp
    simp [execItemsLoop]
  | cons item rest ih =>
    intro pre st hpre hnd
    have hmiss : ∀ y ∈ pre, MenuItem.id y ≠ MenuItem.id item := by
      intro y hy hcon
      have hids : (pre.map MenuItem.id ++ item.id :: rest.map MenuItem.id).Nodup := by
        simpa using hnd
      rcases List.nodup_append.mp hids with ⟨_, _, hdisj⟩
      exact hdisj (List.mem_map_of_mem MenuItem.id hy) (by simp [hcon])
    have hrep : replaceById MenuItem.id st.menu_items item.id (setAvail p item)
        = some (pre ++ setAvail p item :: rest) := by
      rw [hpre]
      exact replaceById_prefix_miss MenuItem.id pre rest item (setAvail p item) hmiss
    have hupd : st_update_menu_item st (setAvail p item).id (setAvail p item)
        = .ok { st with menu_items := pre ++ setAvail p item :: rest } := by
      unfold st_update_menu_item
      rw [setAvail_id, hrep]
    have hih := ih (pre ++ [setAvail p item])
      { st with menu_items := pre ++ setAvail p item :: rest }
      (by simp)
      (by
        have : ((pre ++ [setAvail p item]) ++ rest).map MenuItem.id
            = (pre ++ item :: rest).map MenuItem.id := by
          simp [setAvail_id]
        rw [this]
        simpa [hpre] using hnd)
    unfold execItemsLoop
    simp only [hupd]
    rw [hih]
    simp

/-! ## Facts about a successful execution pass -/

theorem execute_schedule_success (aM : Int → Option Int) (now : Int) (st : StorageState)
    (s : MenuSchedule) (preset : MenuPreset)
    (hmem : s ∈ st.menu_schedules)
    (hpreset : st.menu_presets.find? (fun p => p.id == s.preset_id) = some preset) :
    ∃ st1 st2 st3,
      st_update_menu_schedule st s.id (activated now s) = .ok st1
      ∧ st1.menu_items = st.menu_items
      ∧ st1.menu_presets = st.menu_presets
      ∧ execItemsLoop preset st.menu_items st1 = (st2, (none : Option AppError))
      ∧ st2.menu_schedules = st1.menu_schedules
      ∧ st2.menu_presets = st1.menu_presets
      ∧ st_update_menu_schedule st2 s.id (exec_final aM now (activated now s)) = .ok st3
      ∧ st3.menu_items = st2.menu_items
      ∧ st3.menu_presets = st2.menu_presets
      ∧ execute_schedule aM now st s = (st3, none) := by
  obtain ⟨st1, h1⟩ := st_update_sched_exists st s.id (activated now s) s hmem rfl
  obtain ⟨hitems1, hpresets1, _⟩ := st_update_sched_ok_parts st s.id (activated now s) st1 h1
  have hids1 : st1.menu_schedules.map MenuSchedule.id
      = st.menu_schedules.map MenuSchedule.id :=
    st_update_sched_ids st s.id (activated now s) st1 h1 rfl
  have hloop2 : (execItemsLoop preset st.menu_items st1).2 = none := by
    refine execItemsLoop_ok preset st.menu_items st1 (fun it hit => ?_)
    rw [hitems1]
    exact List.mem_map_of_mem MenuItem.id hit
  obtain ⟨hsched2, hpresets2⟩ := execItemsLoop_presets_scheds preset st.menu_items st1
  have hL : execItemsLoop preset st.menu_items st1
      = ((execItemsLoop preset st.menu_items st1).1, none) := by
    rw [← hloop2]
  have hpresent2 : ∃ x ∈ (execItemsLoop preset st.menu_items st1).1.menu_schedules,
      x.id = s.id := by
    have : s.id ∈ (execItemsLoop preset st.menu_items st1).1.menu_schedules.map
        MenuSchedule.id := by
      rw [hsched2, hids1]
      exact List.mem_map_of_mem MenuSchedule.id hmem
    rcases List.mem_map.mp this with ⟨x, hx, hxid⟩
    exact ⟨x, hx, hxid⟩
  rcases hpresent2 with ⟨x, hx, hxid⟩
  obtain ⟨st3, h3⟩ := st_update_sched_exists (execItemsLoop preset st.menu_items st1).1
    s.id (exec_final aM now (activated now s)) x hx hxid
  obtain ⟨hitems3, hpresets3, _⟩ := st_update_sched_ok_parts _ s.id
    (exec_final aM now (activated now s)) st3 h3
  refine ⟨st1, (execItemsLoop preset st.menu_items st1).1, st3, h1, hitems1, hpresets1,
    hL, hsched2, hpresets2, h3, hitems3, hpresets3, ?_⟩
  unfold execute_schedule
  simp only [h1]
  simp only [hpresets1, hpreset]
  simp only [hitems1]
  rw [hL]
  simp only [h3]

/-- C5: an execution pass is a full replace — after a successful pass every
menu item whose id is in the preset's id set is available and every other item
is unavailable, regardless of prior availability (item ids assumed distinct,
as `Uuid::new_v4` guarantees in the source). -/
theorem C5_execution_full_replace (aM : Int → Option Int) (now : Int) (st : StorageState)
    (s : MenuSchedule) (preset : MenuPreset)
    (hmem : s ∈ st.menu_schedules)
    (hpreset : st.menu_presets.find? (fun p => p.id == s.preset_id) = some preset)
    (hnd : (st.menu_items.map MenuItem.id).Nodup) :
    ∃ st', execute_schedule aM now st s = (st', none)
      ∧ st'.menu_items = st.menu_items.map (setAvail preset)
      ∧ ∀ it ∈ st'.menu_items,
          (it.id ∈ preset.menu_item_ids → it.is_available = true)
          ∧ (it.id ∉ preset.menu_item_ids → it.is_available = false) := by
  obtain ⟨st1, st2, st3, h1, hitems1, hpresets1, hL, hsched2, hpresets2, h3, hitems3,
    hpresets3, hexec⟩ := execute_schedule_success aM now st s preset hmem hpreset
  have hspec := execItemsLoop_spec preset st.menu_items [] st1
    (by simpa using hitems1) (by simpa using hnd)
  have hst2 : st2.menu_items = st.menu_items.map (setAvail preset) := by
    have hcmp := hL.symm.trans hspec
    have : st2 = { st1 with menu_items := [] ++ st.menu_items.map (setAvail preset) } := by
      exact congrArg Prod.fst hcmp
    rw [this]
    simp
  refine ⟨st3, hexec, by rw [hitems3, hst2], ?_⟩
  intro it hit
  rw [hitems3, hst2] at hit
  rcases List.mem_map.mp hit with ⟨x, _, rfl⟩
  rw [setAvail_eq]
  constructor
  · intro hin
    simp only [List.elem_eq_mem]
    simpa using hin
  · intro hout
    simp only [List.elem_eq_mem]
    simpa using hout

theorem exec_final_id (aM : Int → Option Int) (now : Int) (y : MenuSchedule) :
    (exec_final aM now y).id = y.id := by
  unfold exec_final
  repeat' split
  all_goals rfl

theorem exec_final_status (aM : Int → Option Int) (now : Int) (y : MenuSchedule) :
    (exec_final aM now y).status = ScheduleStatus.Ended
      ∨ (exec_final aM now y).status = ScheduleStatus.Pending := by
  unfold exec_final
  repeat' split
  all_goals simp

/-- Identity, preset collection, schedule-id multiset and foreign-id lookups
are preserved by `execute_schedule`, whatever path it takes; every schedule it
writes carries a status produced by the state machine (`Active`, `Pending` or
`Ended`). -/
theorem execute_schedule_state_facts (aM : Int → Option Int) (now : Int)
    (st : StorageState) (t : MenuSchedule) :
    (execute_schedule aM now st t).1.menu_schedules.map MenuSchedule.id
        = st.menu_schedules.map MenuSchedule.id
      ∧ (execute_schedule aM now st t).1.menu_presets = st.menu_presets
      ∧ (∀ j, j ≠ t.id →
          findSched (execute_schedule aM now st t).1 j = findSched st j)
      ∧ (∀ x ∈ (execute_schedule aM now st t).1.menu_schedules,
          x ∈ st.menu_schedules ∨ x.status = ScheduleStatus.Active
            ∨ x.status = ScheduleStatus.Pending ∨ x.status = ScheduleStatus.Ended) := by
  unfold execute_schedule
  split
  next e h1 => exact ⟨rfl, rfl, fun j _ => rfl, fun x hx => Or.inl hx⟩
  next st1 h1 =>
    obtain ⟨hitems1, hpresets1, _⟩ := st_update_sched_ok_parts st t.id (activated now t) st1 h1
    have hids1 : st1.menu_schedules.map MenuSchedule.id
        = st.menu_schedules.map MenuSchedule.id :=
      st_update_sched_ids st t.id (activated now t) st1 h1 rfl
    have hfind1 : ∀ j, j ≠ t.id → findSched st1 j = findSched st j := fun j hj =>
      st_update_sched_find_other st t.id (activated now t) st1 j h1 rfl hj
    have hmem1 : ∀ x ∈ st1.menu_schedules,
        x ∈ st.menu_schedules ∨ x.status = ScheduleStatus.Active
          ∨ x.status = ScheduleStatus.Pending ∨ x.status = ScheduleStatus.Ended := by
      intro x hx
      rcases st_update_sched_mem st t.id (activated now t) st1 x h1 hx with h | h
      · exact Or.inl h
      · exact Or.inr (Or.inl (by rw [h]; rfl))
    split
    next hf => exact ⟨hids1, hpresets1, hfind1, hmem1⟩
    next preset hf =>
      obtain ⟨hsched2, hpresets2⟩ := execItemsLoop_presets_scheds preset st1.menu_items st1
      split
      next st2 e hq =>
        rw [hq] at hsched2 hpresets2
        refine ⟨by rw [hsched2, hids1], by rw [hpresets2, hpresets1], ?_, ?_⟩
        · intro j hj
          unfold findSched
          rw [hsched2]
          exact hfind1 j hj
        · intro x hx
          rw [hsched2] at hx
          exact hmem1 x hx
      next st2 hq =>
        rw [hq] at hsched2 hpresets2
        have hids2 : st2.menu_schedules.map MenuSchedule.id
            = st.menu_schedules.map MenuSchedule.id := by rw [hsched2, hids1]
        have hfind2 : ∀ j, j ≠ t.id → findSched st2 j = findSched st j := by
          intro j hj
          unfold findSched
          rw [hsched2]
          exact hfind1 j hj
        have hmem2 : ∀ x ∈ st2.menu_schedules,
            x ∈ st.menu_schedules ∨ x.status = ScheduleStatus.Active
              ∨ x.status = ScheduleStatus.Pending ∨ x.status = ScheduleStatus.Ended := by
          intro x hx
          rw [hsched2] at hx
          exact hmem1 x hx
        split
        next e h3 => exact ⟨hids2, by rw [hpresets2, hpresets1], hfind2, hmem2⟩
        next st3 h3 =>
          obtain ⟨_, hpresets3, _⟩ := st_update_sched_ok_parts st2 t.id
            (exec_final aM now (activated now t)) st3 h3
          have hvfid : (exec_final aM now (activated now t)).id = t.id := by
            rw [exec_final_id]; rfl
          refine ⟨?_, ?_, ?_, ?_⟩
          · rw [st_update_sched_ids st2 t.id (exec_final aM now (activated now t)) st3 h3
              hvfid, hids2]
          · rw [hpresets3, hpresets2, hpresets1]
          · intro j hj
            rw [st_update_sched_find_other st2 t.id (exec_final aM now (activated now t))
              st3 j h3 hvfid hj]
            exact hfind2 j hj
          · intro x hx
            rcases st_update_sched_mem st2 t.id (exec_final aM now (activated now t))
              st3 x h3 hx with h | h
            · exact hmem2 x h
            · rcases exec_final_status aM now (activated now t) with hs | hs
              · exact Or.inr (Or.inr (Or.inr (by rw [h]; exact hs)))
              · exact Or.inr (Or.inr (Or.inl (by rw [h]; exact hs)))

/-- Per-schedule tick step: schedule-id multiset and preset collection are
preserved, lookups of other ids are untouched, and every schedule the step
writes carries one of the five machine statuses (never `Inactive`). -/
theorem processOne_state_facts (aM : Int → Option Int) (now : Int)
    (snapshot : List MenuSchedule) (st : StorageState) (t : MenuSchedule) :
    (processOne aM now snapshot st t).menu_schedules.map MenuSchedule.id
        = st.menu_schedules.map MenuSchedule.id
      ∧ (processOne aM now snapshot st t).menu_presets = st.menu_presets
      ∧ (∀ j, j ≠ t.id → findSched (processOne aM now snapshot st t) j = findSched st j)
      ∧ (∀ x ∈ (processOne aM now snapshot st t).menu_schedules,
          x ∈ st.menu_schedules ∨ x.status = ScheduleStatus.Active
            ∨ x.status = ScheduleStatus.Pending ∨ x.status = ScheduleStatus.Ended
            ∨ x.status = ScheduleStatus.Conflicted ∨ x.status = ScheduleStatus.Failed) := by
  have triv : ∀ (stx : StorageState), stx = st →
      (stx.menu_schedules.map MenuSchedule.id = st.menu_schedules.map MenuSchedule.id
        ∧ stx.menu_presets = st.menu_presets
        ∧ (∀ j, j ≠ t.id → findSched stx j = findSched st j)
        ∧ (∀ x ∈ stx.menu_schedules,
            x ∈ st.menu_schedules ∨ x.status = ScheduleStatus.Active
              ∨ x.status = ScheduleStatus.Pending ∨ x.status = ScheduleStatus.Ended
              ∨ x.status = ScheduleStatus.Conflicted ∨ x.status = ScheduleStatus.Failed)) := by
    intro stx hx
    subst hx
    exact ⟨rfl, rfl, fun _ _ => rfl, fun x hx => Or.inl hx⟩
  have onWrite : ∀ (st0 st1 : StorageState) (v : MenuSchedule),
      st_update_menu_schedule st0 t.id v = .ok st1 → v.id = t.id →
      (v.status = ScheduleStatus.Active ∨ v.status = ScheduleStatus.Pending
        ∨ v.status = ScheduleStatus.Ended ∨ v.status = ScheduleStatus.Conflicted
        ∨ v.status = ScheduleStatus.Failed) →
      (st1.menu_schedules.map MenuSchedule.id = st0.menu_schedules.map MenuSchedule.id
        ∧ st1.menu_presets = st0.menu_presets
        ∧ (∀ j, j ≠ t.id → findSched st1 j = findSched st0 j)
        ∧ (∀ x ∈ st1.menu_schedules,
            x ∈ st0.menu_schedules ∨ x.status = ScheduleStatus.Active
              ∨ x.status = ScheduleStatus.Pending ∨ x.status = ScheduleStatus.Ended
              ∨ x.status = ScheduleStatus.Conflicted ∨ x.status = ScheduleStatus.Failed)) := by
    intro st0 st1 v hu hv hs
    obtain ⟨_, hp, _⟩ := st_update_sched_ok_parts st0 t.id v st1 hu
    refine ⟨st_update_sched_ids st0 t.id v st1 hu hv, hp,
      fun j hj => st_update_sched_find_other st0 t.id v st1 j hu hv hj, ?_⟩
    intro x hx
    rcases st_update_sched_mem st0 t.id v st1 x hu hx with h | h
    · exact Or.inl h
    · exact Or.inr (h ▸ hs)
  unfold processOne
  split
  · split
    · split
      next c hc =>
        split
        next st1 hu =>
          exact onWrite st st1 (conflictedOf t c) hu rfl
            (Or.inr (Or.inr (Or.inr (Or.inl rfl))))
        next e hu => exact triv st rfl
      next hc =>
        split
        next st1 hq =>
          have hfacts := execute_schedule_state_facts aM now st t
          rw [hq] at hfacts
          exact ⟨hfacts.1, hfacts.2.1, hfacts.2.2.1, fun x hx =>
            (hfacts.2.2.2 x hx).imp id (fun h => h.imp id (fun h => h.imp id Or.inl))⟩
        next st1 e hq =>
          have hfacts := execute_schedule_state_facts aM now st t
          rw [hq] at hfacts
          have base :
              st1.menu_schedules.map MenuSchedule.id = st.menu_schedules.map MenuSchedule.id
                ∧ st1.menu_presets = st.menu_presets
                ∧ (∀ j, j ≠ t.id → findSched st1 j = findSched st j)
                ∧ (∀ x ∈ st1.menu_schedules,
                    x ∈ st.menu_schedules ∨ x.status = ScheduleStatus.Active
                      ∨ x.status = ScheduleStatus.Pending ∨ x.status = ScheduleStatus.Ended
                      ∨ x.status = ScheduleStatus.Conflicted
                      ∨ x.status = ScheduleStatus.Failed) :=
            ⟨hfacts.1, hfacts.2.1, hfacts.2.2.1, fun x hx =>
              (hfacts.2.2.2 x hx).imp id (fun h => h.imp id (fun h => h.imp id Or.inl))⟩
          split
          next st2 hu =>
            have hw := onWrite st1 st2 (failedOf t e) hu rfl
              (Or.inr (Or.inr (Or.inr (Or.inr rfl))))
            refine ⟨hw.1.trans base.1, hw.2.1.trans base.2.1,
              fun j hj => (hw.2.2.1 j hj).trans (base.2.2.1 j hj), ?_⟩
            intro x hx
            rcases hw.2.2.2 x hx with h | h
            · exact base.2.2.2 x h
            · exact Or.inr h
          next e2 hu => exact base
    · exact triv st rfl
  · split
    · split
      · split
        next st1 hu =>
          exact onWrite st st1 (endedOf now t) hu rfl (Or.inr (Or.inr (Or.inl rfl)))
        next e hu => exact triv st rfl
      · exact triv st rfl
    · exact triv st rfl

/-- If the schedule is `Active` and overdue and its id is stored, the tick
step writes exactly the `Ended` record for it. -/
theorem processOne_active_ends (aM : Int → Option Int) (now : Int)
    (snapshot : List MenuSchedule) (st : StorageState) (t : MenuSchedule)
    (hA : t.status = ScheduleStatus.Active) (hend : t.end_time ≤ now)
    (hpres : ∃ x ∈ st.menu_schedules, x.id = t.id) :
    findSched (processOne aM now snapshot st t) t.id = some (endedOf now t) := by
  rcases hpres with ⟨x, hx, hxid⟩
  obtain ⟨st1, hu⟩ := st_update_sched_exists st t.id (endedOf now t) x hx hxid
  unfold processOne
  rw [hA]
  have h1 : ¬ (ScheduleStatus.Active = ScheduleStatus.Pending) := by decide
  rw [if_neg h1, if_pos rfl, if_pos hend, hu]
  exact st_update_sched_find_self st t.id (endedOf now t) st1 hu rfl

/-- If the schedule is due, `Pending`, conflict-free against the snapshot and
its preset resolves, the tick step executes it and writes `exec_final` of the
`Active`-marked schedule. -/
theorem processOne_executes (aM : Int → Option Int) (now : Int)
    (snapshot : List MenuSchedule) (st : StorageState) (s : MenuSchedule)
    (preset : MenuPreset)
    (hP : s.status = ScheduleStatus.Pending) (hdue : s.start_time ≤ now)
    (hnc : has_schedule_conflict s snapshot = none)
    (hmem : s ∈ st.menu_schedules)
    (hpreset : st.menu_presets.find? (fun p => p.id == s.preset_id) = some preset) :
    findSched (processOne aM now snapshot st s) s.id
      = some (exec_final aM now (activated now s)) := by
  obtain ⟨st1, st2, st3, h1, hitems1, hpresets1, hL, hsched2, hpresets2, h3, hitems3,
    hpresets3, hexec⟩ := execute_schedule_success aM now st s preset hmem hpreset
  unfold processOne
  rw [hP, if_pos rfl]
  have hdueb : is_schedule_due s now = true := by
    unfold is_schedule_due
    exact decide_eq_true hdue
  rw [if_pos hdueb, hnc]
  simp only [hexec]
  exact st_update_sched_find_self st2 s.id (exec_final aM now (activated now s)) st3 h3
    (by rw [exec_final_id]; rfl)

/-- Folding the tick body over a list of schedules none of which carries id
`j` leaves the lookup of `j` unchanged. -/
theorem tick_fold_find_other (aM : Int → Option Int) (now : Int)
    (snapshot : List MenuSchedule) :
    ∀ (l : List MenuSchedule) (st : StorageState) (j : Nat), (∀ t ∈ l, t.id ≠ j) →
      findSched (l.foldl (processOne aM now snapshot) st) j = findSched st j := by
  intro l
  induction l with
  | nil => intro st j _; rfl
  | cons h rest ih =>
    intro st j hall
    rw [List.foldl_cons, ih (processOne aM now snapshot st h) j
      (fun t ht => hall t (by simp [ht]))]
    exact (processOne_state_facts aM now snapshot st h).2.2.1 j (hall h (by simp)).symm

/-- Folding the tick body preserves the schedule-id multiset. -/
theorem tick_fold_ids (aM : Int → Option Int) (now : Int) (snapshot : List MenuSchedule) :
    ∀ (l : List MenuSchedule) (st : StorageState),
      (l.foldl (processOne aM now snapshot) st).menu_schedules.map MenuSchedule.id
        = st.menu_schedules.map MenuSchedule.id := by
  intro l
  induction l with
  | nil => intro st; rfl
  | cons h rest ih =>
    intro st
    rw [List.foldl_cons, ih (processOne aM now snapshot st h),
      (processOne_state_facts aM now snapshot st h).1]

/-- Any schedule present after folding the tick body was already stored or
carries one of the five machine statuses. -/
theorem tick_fold_mem (aM : Int → Option Int) (now : Int) (snapshot : List MenuSchedule) :
    ∀ (l : List MenuSchedule) (st : StorageState)
      (x : MenuSchedule), x ∈ (l.foldl (processOne aM now snapshot) st).menu_schedules →
      x ∈ st.menu_schedules ∨ x.status = ScheduleStatus.Active
        ∨ x.status = ScheduleStatus.Pending ∨ x.status = ScheduleStatus.Ended
        ∨ x.status = ScheduleStatus.Conflicted ∨ x.status = ScheduleStatus.Failed := by
  intro l
  induction l with
  | nil => intro st x hx; exact Or.inl hx
  | cons h rest ih =>
    intro st x hx
    rw [List.foldl_cons] at hx
    rcases ih (processOne aM now snapshot st h) x hx with h2 | h2
    · exact (processOne_state_facts aM now snapshot st h).2.2.2 x h2
    · exact Or.inr h2

/-- An `Active` schedule with `end_time ≤ now` listed in the fold input (ids
distinct) ends the fold as exactly the `Ended` record. -/
theorem tick_fold_active_ends (aM : Int → Option Int) (now : Int)
    (snapshot : List MenuSchedule) (s : MenuSchedule)
    (hA : s.status = ScheduleStatus.Active) (hend : s.end_time ≤ now) :
    ∀ (l : List MenuSchedule) (st : StorageState), s ∈ l →
      (l.map MenuSchedule.id).Nodup →
      s.id ∈ st.menu_schedules.map MenuSchedule.id →
      findSched (l.foldl (processOne aM now snapshot) st) s.id
        = some (endedOf now s) := by
  intro l
  induction l with
  | nil => intro st hmem _ _; simp at hmem
  | cons h rest ih =>
    intro st hmem hnd hpres
    rw [List.foldl_cons]
    by_cases hh : h = s
    · subst hh
      have hrest : ∀ t ∈ rest, t.id ≠ h.id := by
        intro t ht hcon
        have : h.id ∈ rest.map MenuSchedule.id := hcon ▸ List.mem_map_of_mem _ ht
        exact (List.nodup_cons.mp (by simpa using hnd)).1 this
      rw [tick_fold_find_other aM now snapshot rest _ h.id hrest]
      refine processOne_active_ends aM now snapshot st h hA hend ?_
      rcases List.mem_map.mp hpres with ⟨x, hx, hxid⟩
      exact ⟨x, hx, hxid⟩
    · have hs : s ∈ rest := by
        rcases List.mem_cons.mp hmem with h2 | h2
        · exact absurd h2.symm hh
        · exact h2
      have hhid : h.id ≠ s.id := by
        intro hcon
        have : h.id ∈ rest.map MenuSchedule.id := hcon ▸ List.mem_map_of_mem _ hs
        exact (List.nodup_cons.mp (by simpa using hnd)).1 this
      refine ih (processOne aM now snapshot st h) hs
        ((List.nodup_cons.mp (by simpa using hnd)).2) ?_
      rw [(processOne_state_facts aM now snapshot st h).1]
      exact hpres

/-- C8 (amended): every schedule that is `Active` at tick time with
`end_time ≤ now` — the boundary `end_time = now` included — is left by the
tick in status `Ended` with its error message cleared (schedules in other
terminal or `Inactive`/`Pending`-conflicted states are not so normalised, see
the counterexample). -/
theorem C8_active_past_end_ends (aM : Int → Option Int) (now : Int) (st : StorageState)
    (s : MenuSchedule)
    (hmem : s ∈ st.menu_schedules)
    (hnd : (st.menu_schedules.map MenuSchedule.id).Nodup)
    (hA : s.status = ScheduleStatus.Active) (hend : s.end_time ≤ now) :
    findSched (check_and_execute_schedules aM now st) s.id = some (endedOf now s) := by
  unfold check_and_execute_schedules
  exact tick_fold_active_ends aM now st.menu_schedules s hA hend st.menu_schedules st hmem
    hnd (List.mem_map_of_mem MenuSchedule.id hmem)

/-- C8 witness: an `Active` schedule whose `end_time` is exactly the tick
time 8200 is `Ended` with a cleared message after the tick. -/
theorem C8_active_past_end_ends_witness :
    (fxSchedActive ∈ fxStateActive.menu_schedules
        ∧ (fxStateActive.menu_schedules.map MenuSchedule.id).Nodup
        ∧ fxSchedActive.status = ScheduleStatus.Active
        ∧ fxSchedActive.end_time ≤ 8200 ∧ fxSchedActive.end_time = 8200)
      ∧ findSched (check_and_execute_schedules fxAddMonth 8200 fxStateActive)
          fxSchedActive.id = some (endedOf 8200 fxSchedActive) :=
  ⟨⟨by decide, by decide, by decide, by decide, by decide⟩,
    C8_active_past_end_ends fxAddMonth 8200 fxStateActive fxSchedActive
      (by decide) (by decide) (by decide) (by decide)⟩

/-- C7: a `Daily` schedule that is due, `Pending`, conflict-free against the
tick snapshot, with a resolvable preset and `end_time` more than one day past
the execution time, is re-armed by one successful execution pass: `start_time`
advanced by exactly one day, status back to `Pending`, error message
cleared. -/
theorem C7_daily_rearm (aM : Int → Option Int) (now : Int)
    (snapshot : List MenuSchedule) (st : StorageState) (s : MenuSchedule)
    (preset : MenuPreset)
    (hP : s.status = ScheduleStatus.Pending) (hdue : s.start_time ≤ now)
    (hnc : has_schedule_conflict s snapshot = none)
    (hmem : s ∈ st.menu_schedules)
    (hpreset : st.menu_presets.find? (fun p => p.id == s.preset_id) = some preset)
    (hdaily : s.recurrence = ScheduleRecurrence.Daily)
    (hfar : now + oneDay < s.end_time) :
    findSched (processOne aM now snapshot st s) s.id
      = some { s with
               start_time := s.start_time + oneDay,
               status := ScheduleStatus.Pending, updated_at := now,
               error_message := none } := by
  rw [processOne_executes aM now snapshot st s preset hP hdue hnc hmem hpreset]
  have hone : oneDay = 86400 := rfl
  have hcalc : calculate_next_occurrence aM (activated now s)
      = some (s.start_time + oneDay) := by
    unfold calculate_next_occurrence activated
    simp [hdaily]
  have h1 : ¬ ((activated now s).end_time ≤ now) := by
    show ¬ (s.end_time ≤ now)
    omega
  have h2 : s.start_time + oneDay ≤ (activated now s).end_time := by
    show s.start_time + oneDay ≤ s.end_time
    omega
  congr 1
  unfold exec_final
  rw [if_neg h1]
  rw [show (activated now s).recurrence = ScheduleRecurrence.Daily from hdaily]
  simp only [hcalc]
  rw [if_pos h2]
  simp [activated, hdaily]

/-- C7 witness: the `Daily` fixture starting at 1000 with end time 1000000,
executed at tick time 1000, is re-armed to start 1000 + 86400. -/
theorem C7_daily_rearm_witness :
    (fxSchedDaily.status = ScheduleStatus.Pending
        ∧ fxSchedDaily.start_time ≤ 1000
        ∧ has_schedule_conflict fxSchedDaily [fxSchedDaily] = none
        ∧ fxSchedDaily ∈ fxStateDaily.menu_schedules
        ∧ fxStateDaily.menu_presets.find? (fun p => p.id == fxSchedDaily.preset_id)
            = some fxPresetP
        ∧ fxSchedDaily.recurrence = ScheduleRecurrence.Daily
        ∧ 1000 + oneDay < fxSchedDaily.end_time)
      ∧ findSched (processOne fxAddMonth 1000 [fxSchedDaily] fxStateDaily fxSchedDaily)
          fxSchedDaily.id
        = some { fxSchedDaily with
                 start_time := fxSchedDaily.start_time + oneDay,
                 status := ScheduleStatus.Pending, updated_at := 1000,
                 error_message := none } :=
  ⟨⟨by decide, by decide, by decide, by decide, by decide, by decide, by decide⟩,
    C7_daily_rearm fxAddMonth 1000 [fxSchedDaily] fxStateDaily fxSchedDaily fxPresetP
      (by decide) (by decide) (by decide) (by decide) (by decide) (by decide) (by decide)⟩

/-! ## Facts about the schedule handlers -/

theorem parse_status_range (s : String) (v : ScheduleStatus)
    (h : parse_status s = some v) :
    v = ScheduleStatus.Active ∨ v = ScheduleStatus.Inactive
      ∨ v = ScheduleStatus.Pending := by
  unfold parse_status at h
  split_ifs at h
  · cases Option.some.inj h; decide
  · cases Option.some.inj h; decide
  · cases Option.some.inj h; decide

theorem parse_status_pending_iff (s : String) (v : ScheduleStatus)
    (h : parse_status s = some v) : v = ScheduleStatus.Pending ↔ s = "Pending" := by
  unfold parse_status at h
  split_ifs at h with h1 h2 h3
  · subst h1; cases Option.some.inj h; decide
  · subst h2; cases Option.some.inj h; decide
  · subst h3; cases Option.some.inj h; decide

/-- Any successful run of the create handler built its stored schedule
verbatim from the request: recurrence and status through the string
conversions, times and fields as sent, and appended it to the collection. -/
theorem create_ok_shape (st : StorageState) (req : CreateMenuScheduleRequest)
    (newId : Nat) (now : Int) (res : StorageState) (sched : MenuSchedule)
    (h : create_menu_schedule st req newId now = .ok (res, sched)) :
    parse_recurrence req.recurrence = some sched.recurrence
      ∧ parse_status req.status = some sched.status
      ∧ sched = newScheduleOf req newId now sched.recurrence sched.status
      ∧ res = st_add_menu_schedule st sched := by
  unfold create_menu_schedule at h
  split at h
  · exact absurd h (by simp)
  · split at h
    next hrec0 => exact absurd h (by simp)
    next r hrec =>
      split at h
      next hstat0 => exact absurd h (by simp)
      next v hstat =>
        split at h
        next c hc => exact absurd h (by simp)
        next hc =>
          injection h with h2
          have hres : st_add_menu_schedule st (newScheduleOf req newId now r v) = res :=
            congrArg Prod.fst h2
          have hsched : newScheduleOf req newId now r v = sched :=
            congrArg Prod.snd h2
          subst hsched
          subst hres
          exact ⟨hrec.trans rfl, hstat.trans rfl, rfl, rfl⟩

/-- When the request passes the preset, recurrence and status validations and
no same-preset overlap exists, the create handler succeeds and stores the
request's fields verbatim — no time-ordering check happens. -/
theorem create_ok_of_valid (st : StorageState) (req : CreateMenuScheduleRequest)
    (newId : Nat) (now : Int) (r : ScheduleRecurrence) (v : ScheduleStatus)
    (hp : st.menu_presets.any (fun p => p.id == req.preset_id) = true)
    (hrec : parse_recurrence req.recurrence = some r)
    (hstat : parse_status req.status = some v)
    (hnc : st.menu_schedules.find? (creation_conflict req) = none) :
    create_menu_schedule st req newId now
      = .ok (st_add_menu_schedule st (newScheduleOf req newId now r v),
             newScheduleOf req newId now r v) := by
  unfold create_menu_schedule
  rw [hp]
  simp only [Bool.not_true]
  rw [if_neg (by simp), hrec, hstat, hnc]

/-- When the request passes the preset, recurrence and status validations and
a same-preset overlap is found, the create handler rejects with the conflict
validation error. -/
theorem create_error_of_conflict (st : StorageState) (req : CreateMenuScheduleRequest)
    (newId : Nat) (now : Int) (r : ScheduleRecurrence) (v : ScheduleStatus)
    (e : MenuSchedule)
    (hp : st.menu_presets.any (fun p => p.id == req.preset_id) = true)
    (hrec : parse_recurrence req.recurrence = some r)
    (hstat : parse_status req.status = some v)
    (hc : st.menu_schedules.find? (creation_conflict req) = some e) :
    create_menu_schedule st req newId now
      = .error (.Validation ("Schedule conflict with existing schedule id "
          ++ toString e.id)) := by
  unfold create_menu_schedule
  rw [hp]
  simp only [Bool.not_true]
  rw [if_neg (by simp), hrec, hstat, hc]

/-! ## Claim theorems on the handlers -/

/-- C1 (amended): the statuses reachable through public operations are the
five machine states *plus* `Inactive` — the create (and update) handlers store
any of `Active`, `Inactive`, `Pending` taken verbatim from the request (so
`Inactive` is reachable, contrary to the claim), while the scheduler tick
itself only ever writes the five machine statuses and never `Inactive`. -/
theorem C1_status_range (st : StorageState) (req : CreateMenuScheduleRequest)
    (newId : Nat) (now : Int) (res : StorageState) (sched : MenuSchedule)
    (aM : Int → Option Int) (now2 : Int) (stT : StorageState) (x : MenuSchedule)
    (hok : create_menu_schedule st req newId now = .ok (res, sched))
    (hx : x ∈ (check_and_execute_schedules aM now2 stT).menu_schedules) :
    (sched.status = ScheduleStatus.Active ∨ sched.status = ScheduleStatus.Inactive
        ∨ sched.status = ScheduleStatus.Pending)
      ∧ (x ∈ stT.menu_schedules ∨ x.status = ScheduleStatus.Active
          ∨ x.status = ScheduleStatus.Pending ∨ x.status = ScheduleStatus.Ended
          ∨ x.status = ScheduleStatus.Conflicted ∨ x.status = ScheduleStatus.Failed) := by
  obtain ⟨_, hstat, _, _⟩ := create_ok_shape st req newId now res sched hok
  unfold check_and_execute_schedules at hx
  exact ⟨parse_status_range req.status sched.status hstat,
    tick_fold_mem aM now2 stT.menu_schedules stT.menu_schedules stT x hx⟩

/-- C1 witness: a create call storing `Inactive` and the stale `Conflicted`
schedule surviving a tick, at the concrete conclusion. -/
theorem C1_status_range_witness :
    (create_menu_schedule fxStateCreate fxReqInactive 42 0
        = .ok (st_add_menu_schedule fxStateCreate
            (newScheduleOf fxReqInactive 42 0 ScheduleRecurrence.Daily
              ScheduleStatus.Inactive),
           newScheduleOf fxReqInactive 42 0 ScheduleRecurrence.Daily
             ScheduleStatus.Inactive)
      ∧ fxSchedConf ∈ (check_and_execute_schedules fxAddMonth 1000 fxStateC8).menu_schedules)
    ∧ ((newScheduleOf fxReqInactive 42 0 ScheduleRecurrence.Daily
          ScheduleStatus.Inactive).status = ScheduleStatus.Active
        ∨ (newScheduleOf fxReqInactive 42 0 ScheduleRecurrence.Daily
            ScheduleStatus.Inactive).status = ScheduleStatus.Inactive
        ∨ (newScheduleOf fxReqInactive 42 0 ScheduleRecurrence.Daily
            ScheduleStatus.Inactive).status = ScheduleStatus.Pending)
      ∧ (fxSchedConf ∈ fxStateC8.menu_schedules
          ∨ fxSchedConf.status = ScheduleStatus.Active
          ∨ fxSchedConf.status = ScheduleStatus.Pending
          ∨ fxSchedConf.status = ScheduleStatus.Ended
          ∨ fxSchedConf.status = ScheduleStatus.Conflicted
          ∨ fxSchedConf.status = ScheduleStatus.Failed) :=
  ⟨⟨by decide, by decide⟩,
    C1_status_range fxStateCreate fxReqInactive 42 0
      (st_add_menu_schedule fxStateCreate
        (newScheduleOf fxReqInactive 42 0 ScheduleRecurrence.Daily ScheduleStatus.Inactive))
      (newScheduleOf fxReqInactive 42 0 ScheduleRecurrence.Daily ScheduleStatus.Inactive)
      fxAddMonth 1000 fxStateC8 fxSchedConf (by decide) (by decide)⟩

/-- C2 (amended): a successfully created schedule's status is exactly the one
demanded by the request's status string — it is `Pending` precisely when the
request says `"Pending"`, not unconditionally. -/
theorem C2_created_status_follows_request (st : StorageState)
    (req : CreateMenuScheduleRequest) (newId : Nat) (now : Int)
    (res : StorageState) (sched : MenuSchedule)
    (hok : create_menu_schedule st req newId now = .ok (res, sched)) :
    sched.status = ScheduleStatus.Pending ↔ req.status = "Pending" := by
  obtain ⟨_, hstat, _, _⟩ := create_ok_shape st req newId now res sched hok
  exact parse_status_pending_iff req.status sched.status hstat

/-- C2 witness: the `"Active"` request, whose stored schedule is not
`Pending`. -/
theorem C2_created_status_follows_request_witness :
    create_menu_schedule fxStateCreate fxReqActive 42 0
        = .ok (st_add_menu_schedule fxStateCreate
            (newScheduleOf fxReqActive 42 0 ScheduleRecurrence.Daily
              ScheduleStatus.Active),
           newScheduleOf fxReqActive 42 0 ScheduleRecurrence.Daily ScheduleStatus.Active)
      ∧ ((newScheduleOf fxReqActive 42 0 ScheduleRecurrence.Daily
            ScheduleStatus.Active).status = ScheduleStatus.Pending
          ↔ fxReqActive.status = "Pending") :=
  ⟨by decide,
    C2_created_status_follows_request fxStateCreate fxReqActive 42 0
      (st_add_menu_schedule fxStateCreate
        (newScheduleOf fxReqActive 42 0 ScheduleRecurrence.Daily ScheduleStatus.Active))
      (newScheduleOf fxReqActive 42 0 ScheduleRecurrence.Daily ScheduleStatus.Active)
      (by decide)⟩

/-- C4 (amended): the stored-schedule invariant `end_time > start_time` is not
enforced by the persisting operations — the create handler stores the
request's times verbatim whenever its other validations pass (so degenerate
intervals persist), and only the advisory `validate_schedule` endpoint, which
stores nothing, rejects `end_time ≤ start_time`. -/
theorem C4_times_unchecked (st st2 : StorageState) (req : CreateMenuScheduleRequest)
    (newId : Nat) (now : Int) (r : ScheduleRecurrence) (v : ScheduleStatus)
    (vreq : ValidateScheduleRequest)
    (hp : st.menu_presets.any (fun p => p.id == req.preset_id) = true)
    (hrec : parse_recurrence req.recurrence = some r)
    (hstat : parse_status req.status = some v)
    (hnc : st.menu_schedules.find? (creation_conflict req) = none)
    (hv : vreq.end_time ≤ vreq.start_time) :
    (create_menu_schedule st req newId now
        = .ok (st_add_menu_schedule st (newScheduleOf req newId now r v),
               newScheduleOf req newId now r v)
      ∧ (newScheduleOf req newId now r v).start_time = req.start_time
      ∧ (newScheduleOf req newId now r v).end_time = req.end_time)
    ∧ validate_schedule_handler st2 vreq
        = .error (.Validation "End time must be after start time") := by
  refine ⟨⟨create_ok_of_valid st req newId now r v hp hrec hstat hnc, rfl, rfl⟩, ?_⟩
  unfold validate_schedule_handler
  rw [if_pos hv]

/-- C4 witness: the degenerate request (start = end = 0) persists, and the
validate endpoint rejects the same times. -/
theorem C4_times_unchecked_witness :
    (fxStateCreate.menu_presets.any (fun p => p.id == fxReqDegenerate.preset_id) = true
        ∧ parse_recurrence fxReqDegenerate.recurrence = some ScheduleRecurrence.Daily
        ∧ parse_status fxReqDegenerate.status = some ScheduleStatus.Pending
        ∧ fxStateCreate.menu_schedules.find? (creation_conflict fxReqDegenerate) = none
        ∧ fxValReqDegenerate.end_time ≤ fxValReqDegenerate.start_time)
      ∧ ((create_menu_schedule fxStateCreate fxReqDegenerate 42 0
            = .ok (st_add_menu_schedule fxStateCreate
                (newScheduleOf fxReqDegenerate 42 0 ScheduleRecurrence.Daily
                  ScheduleStatus.Pending),
               newScheduleOf fxReqDegenerate 42 0 ScheduleRecurrence.Daily
                 ScheduleStatus.Pending)
          ∧ (newScheduleOf fxReqDegenerate 42 0 ScheduleRecurrence.Daily
              ScheduleStatus.Pending).start_time = fxReqDegenerate.start_time
          ∧ (newScheduleOf fxReqDegenerate 42 0 ScheduleRecurrence.Daily
              ScheduleStatus.Pending).end_time = fxReqDegenerate.end_time)
        ∧ validate_schedule_handler fxStateCreate fxValReqDegenerate
            = .error (.Validation "End time must be after start time")) :=
  ⟨⟨by decide, by decide, by decide, by decide, by decide⟩,
    C4_times_unchecked fxStateCreate fxStateCreate fxReqDegenerate 42 0
      ScheduleRecurrence.Daily ScheduleStatus.Pending fxValReqDegenerate
      (by decide) (by decide) (by decide) (by decide) (by decide)⟩

theorem removeById_none_of_absent {α : Type} (getId : α → Nat) :
    ∀ (l : List α) (i : Nat), (∀ x ∈ l, getId x ≠ i) →
      removeById getId l i = none := by
  intro l i h
  induction l with
  | nil => rfl
  | cons x rest ih =>
    have hx : getId x ≠ i := h x (by simp)
    simp only [removeById, if_neg hx]
    rw [ih (fun y hy => h y (by simp [hy]))]
    rfl

/-- C9 (amended): an id miss on the store's update and delete operations is
not reported through the taxonomy's typed `NotFound` variant — for menu items
it surfaces as `AppError::Storage` (the constructor internal failures also map
to) and for schedules as `StorageError::Io` whose only not-found marker is the
wrapped `io::ErrorKind`; the free-text message carries the information. -/
theorem C9_notfound_via_storage_variants (st : StorageState) (i : Nat)
    (vItem : MenuItem) (vSched : MenuSchedule)
    (hni : ∀ x ∈ st.menu_items, x.id ≠ i)
    (hns : ∀ x ∈ st.menu_schedules, x.id ≠ i) :
    st_update_menu_item st i vItem
        = .error (.Storage ("Menu item with id " ++ toString i ++ " not found"))
      ∧ st_delete_menu_item st i
        = .error (.Storage ("Menu item with id " ++ toString i ++ " not found"))
      ∧ st_update_menu_schedule st i vSched
        = .error (.Io .NotFoundKind ("Menu schedule with id " ++ toString i ++ " not found"))
      ∧ st_delete_menu_schedule st i
        = .error (.Io .NotFoundKind ("Menu schedule with id " ++ toString i ++ " not found")) := by
  refine ⟨?_, ?_, ?_, ?_⟩
  · unfold st_update_menu_item
    rw [replaceById_none_of_absent MenuItem.id st.menu_items i vItem hni]
  · unfold st_delete_menu_item
    rw [removeById_none_of_absent MenuItem.id st.menu_items i hni]
  · unfold st_update_menu_schedule
    rw [replaceById_none_of_absent MenuSchedule.id st.menu_schedules i vSched hns]
  · unfold st_delete_menu_schedule
    rw [removeById_none_of_absent MenuSchedule.id st.menu_schedules i hns]

/-- C9 witness: id 7 against the empty store. -/
theorem C9_notfound_via_storage_variants_witness :
    ((∀ x ∈ fxStateEmpty.menu_items, x.id ≠ 7)
        ∧ (∀ x ∈ fxStateEmpty.menu_schedules, x.id ≠ 7))
      ∧ (st_update_menu_item fxStateEmpty 7 fxItemA
          = .error (.Storage ("Menu item with id " ++ toString 7 ++ " not found"))
        ∧ st_delete_menu_item fxStateEmpty 7
          = .error (.Storage ("Menu item with id " ++ toString 7 ++ " not found"))
        ∧ st_update_menu_schedule fxStateEmpty 7 fxSchedS
          = .error (.Io .NotFoundKind ("Menu schedule with id " ++ toString 7 ++ " not found"))
        ∧ st_delete_menu_schedule fxStateEmpty 7
          = .error (.Io .NotFoundKind ("Menu schedule with id " ++ toString 7 ++ " not found"))) :=
  ⟨⟨by decide, by decide⟩,
    C9_notfound_via_storage_variants fxStateEmpty 7 fxItemA fxSchedS
      (by decide) (by decide)⟩

theorem has_conflict_some_spec (s : MenuSchedule) :
    ∀ (l : List MenuSchedule) (c : MenuSchedule),
      has_schedule_conflict s l = some c →
      c ∈ l ∧ c.id ≠ s.id ∧ s.start_time ≤ c.end_time ∧ s.end_time ≥ c.start_time := by
  intro l
  induction l with
  | nil => intro c h; simp [has_schedule_conflict] at h
  | cons e rest ih =>
    intro c h
    unfold has_schedule_conflict at h
    by_cases h1 : e.id = s.id
    · rw [if_pos h1] at h
      rcases ih c h with ⟨hm, hrest⟩
      exact ⟨by simp [hm], hrest⟩
    · rw [if_neg h1] at h
      by_cases h2 : s.start_time ≤ e.end_time ∧ s.end_time ≥ e.start_time
      · rw [if_pos h2] at h
        cases Option.some.inj h
        exact ⟨by simp, h1, h2.1, h2.2⟩
      · rw [if_neg h2] at h
        rcases ih c h with ⟨hm, hrest⟩
        exact ⟨by simp [hm], hrest⟩

theorem has_conflict_isSome_of_exists (s : MenuSchedule) :
    ∀ (l : List MenuSchedule),
      (∃ e ∈ l, e.id ≠ s.id ∧ s.start_time ≤ e.end_time ∧ s.end_time ≥ e.start_time) →
      (has_schedule_conflict s l).isSome := by
  intro l
  induction l with
  | nil => intro h; simp at h
  | cons e rest ih =>
    intro hex
    rcases hex with ⟨e0, he0, hne, ho1, ho2⟩
    unfold has_schedule_conflict
    by_cases h1 : e.id = s.id
    · rw [if_pos h1]
      refine ih ⟨e0, ?_, hne, ho1, ho2⟩
      rcases List.mem_cons.mp he0 with h2 | h2
      · exact absurd (h2 ▸ h1) (h2 ▸ hne)
      · exact h2
    · rw [if_neg h1]
      by_cases h2 : s.start_time ≤ e.end_time ∧ s.end_time ≥ e.start_time
      · rw [if_pos h2]; rfl
      · rw [if_neg h2]
        refine ih ⟨e0, ?_, hne, ho1, ho2⟩
        rcases List.mem_cons.mp he0 with h3 | h3
        · exact absurd ⟨h3 ▸ ho1, h3 ▸ ho2⟩ h2
        · exact h3

/-- C10: the create handler rejects exactly when some stored schedule passes
its same-preset three-disjunct test; on well-formed intervals the
three-disjunct test coincides with the engine's closed-interval test; and the
engine's tick-time check fires on any other overlapping schedule, with no
preset restriction. -/
theorem C10_creation_conflict_refinement (st : StorageState)
    (req : CreateMenuScheduleRequest) (newId : Nat) (now : Int)
    (r : ScheduleRecurrence) (v : ScheduleStatus) (es ee bs be : Int)
    (s : MenuSchedule) (l : List MenuSchedule)
    (hp : st.menu_presets.any (fun p => p.id == req.preset_id) = true)
    (hrec : parse_recurrence req.recurrence = some r)
    (hstat : parse_status req.status = some v)
    (hwf1 : es ≤ ee) (hwf2 : bs ≤ be) :
    ((∃ e ∈ st.menu_schedules, creation_conflict req e = true)
        ↔ ∃ err, create_menu_schedule st req newId now = .error err)
      ∧ (overlap3 es ee bs be = true ↔ (bs ≤ ee ∧ be ≥ es))
      ∧ (∀ c, has_schedule_conflict s l = some c →
          c ∈ l ∧ c.id ≠ s.id ∧ s.start_time ≤ c.end_time ∧ s.end_time ≥ c.start_time)
      ∧ ((∃ e ∈ l, e.id ≠ s.id ∧ s.start_time ≤ e.end_time ∧ s.end_time ≥ e.start_time)
          → (has_schedule_conflict s l).isSome) := by
  refine ⟨?_, ?_, fun c h => has_conflict_some_spec s l c h,
    has_conflict_isSome_of_exists s l⟩
  · cases hfind : st.menu_schedules.find? (creation_conflict req) with
    | some e =>
      constructor
      · intro _
        exact ⟨_, create_error_of_conflict st req newId now r v e hp hrec hstat hfind⟩
      · intro _
        exact ⟨e, List.mem_of_find?_eq_some hfind, List.find?_some hfind⟩
    | none =>
      constructor
      · intro hex
        rcases hex with ⟨e, he, hpe⟩
        exact absurd hpe (by simpa using List.find?_eq_none.mp hfind e he)
      · intro hex
        rcases hex with ⟨err, herr⟩
        rw [create_ok_of_valid st req newId now r v hp hrec hstat hfind] at herr
        exact absurd herr (by simp)
  · constructor
    · intro h
      have h2 := h
      simp only [overlap3, Bool.or_eq_true, Bool.and_eq_true, decide_eq_true_eq] at h2
      omega
    · intro h
      simp only [overlap3, Bool.or_eq_true, Bool.and_eq_true, decide_eq_true_eq]
      omega

/-- C10 witness: concrete instantiation — request with preset 1 over interval
0..3600 against a store with one overlapping same-preset schedule, and the
interval pair (0..7200, 3600..10800). -/
theorem C10_creation_conflict_refinement_witness :
    (fxStateC10.menu_presets.any (fun p => p.id == fxReqInactive.preset_id) = true
        ∧ parse_recurrence fxReqInactive.recurrence = some ScheduleRecurrence.Daily
        ∧ parse_status fxReqInactive.status = some ScheduleStatus.Inactive
        ∧ (0 : Int) ≤ 7200 ∧ (3600 : Int) ≤ 10800)
      ∧ (((∃ e ∈ fxStateC10.menu_schedules, creation_conflict fxReqInactive e = true)
            ↔ ∃ err, create_menu_schedule fxStateC10 fxReqInactive 42 0 = .error err)
        ∧ (overlap3 0 7200 3600 10800 = true ↔ ((3600 : Int) ≤ 7200 ∧ (10800 : Int) ≥ 0))
        ∧ (∀ c, has_schedule_conflict fxSchedS1 [fxSchedS1, fxSchedS2] = some c →
            c ∈ [fxSchedS1, fxSchedS2] ∧ c.id ≠ fxSchedS1.id
              ∧ fxSchedS1.start_time ≤ c.end_time ∧ fxSchedS1.end_time ≥ c.start_time)
        ∧ ((∃ e ∈ [fxSchedS1, fxSchedS2], e.id ≠ fxSchedS1.id
              ∧ fxSchedS1.start_time ≤ e.end_time ∧ fxSchedS1.end_time ≥ e.start_time)
            → (has_schedule_conflict fxSchedS1 [fxSchedS1, fxSchedS2]).isSome)) :=
  ⟨⟨by decide, by decide, by decide, by decide, by decide⟩,
    C10_creation_conflict_refinement fxStateC10 fxReqInactive 42 0
      ScheduleRecurrence.Daily ScheduleStatus.Inactive 0 7200 3600 10800
      fxSchedS1 [fxSchedS1, fxSchedS2]
      (by decide) (by decide) (by decide) (by decide) (by decide)⟩

theorem conflictedOf_id (a b : MenuSchedule) : (conflictedOf a b).id = a.id := rfl

theorem conflictedOf_status (a b : MenuSchedule) :
    (conflictedOf a b).status = ScheduleStatus.Conflicted := rfl

/-- C3 (amended): when the store holds exactly two overlapping `Pending`
schedules that are both due, the tick marks *both* `Conflicted`, each with a
message naming the other — neither executes (menu items are untouched) and
the two are never both `Active`.  The engine's conflict check consults the
tick-start snapshot, in which the other schedule is still present, so even the
first schedule in tick order is blocked. -/
theorem C3_both_conflicted (aM : Int → Option Int) (now : Int) (st : StorageState)
    (s1 s2 : MenuSchedule)
    (hsch : st.menu_schedules = [s1, s2])
    (hP1 : s1.status = ScheduleStatus.Pending) (hP2 : s2.status = ScheduleStatus.Pending)
    (hdue1 : s1.start_time ≤ now) (hdue2 : s2.start_time ≤ now)
    (hid : s1.id ≠ s2.id)
    (hov1 : s1.start_time ≤ s2.end_time) (hov2 : s1.end_time ≥ s2.start_time) :
    (check_and_execute_schedules aM now st).menu_schedules
        = [conflictedOf s1 s2, conflictedOf s2 s1]
      ∧ (check_and_execute_schedules aM now st).menu_items = st.menu_items
      ∧ ¬ ((conflictedOf s1 s2).status = ScheduleStatus.Active
            ∧ (conflictedOf s2 s1).status = ScheduleStatus.Active) := by
  have hid2 : ¬ (s2.id = s1.id) := fun hcon => hid hcon.symm
  have hc1 : has_schedule_conflict s1 [s1, s2] = some s2 := by
    simp [has_schedule_conflict, hid2, hov1, hov2]
  have hc2 : has_schedule_conflict s2 [s1, s2] = some s1 := by
    simp [has_schedule_conflict, hid, hov1, hov2]
  have hdueb1 : is_schedule_due s1 now = true := decide_eq_true hdue1
  have hdueb2 : is_schedule_due s2 now = true := decide_eq_true hdue2
  have hu1 : st_update_menu_schedule st s1.id (conflictedOf s1 s2)
      = .ok { st with menu_schedules := [conflictedOf s1 s2, s2] } := by
    unfold st_update_menu_schedule
    rw [hsch]
    simp [replaceById]
  have hstep1 : processOne aM now [s1, s2] st s1
      = { st with menu_schedules := [conflictedOf s1 s2, s2] } := by
    unfold processOne
    rw [hP1, if_pos rfl, if_pos hdueb1]
    simp only [hc1, hu1]
  have hu2 : st_update_menu_schedule { st with menu_schedules := [conflictedOf s1 s2, s2] }
        s2.id (conflictedOf s2 s1)
      = .ok { st with menu_schedules := [conflictedOf s1 s2, conflictedOf s2 s1] } := by
    unfold st_update_menu_schedule
    simp [replaceById, conflictedOf_id, hid, hid2]
  have hstep2 : processOne aM now [s1, s2]
        { st with menu_schedules := [conflictedOf s1 s2, s2] } s2
      = { st with menu_schedules := [conflictedOf s1 s2, conflictedOf s2 s1] } := by
    unfold processOne
    rw [hP2, if_pos rfl, if_pos hdueb2]
    simp only [hc2, hu2]
  unfold check_and_execute_schedules
  rw [hsch, List.foldl_cons, List.foldl_cons, List.foldl_nil, hstep1, hstep2]
  exact ⟨rfl, rfl, by simp [conflictedOf_status]⟩

/-- C3 witness: the conflict fixture (S1 at 0..7200 on preset 1, S2 at
3600..10800 on preset 2, both `Pending`, both due at now = 3600), at the
concrete conclusion. -/
theorem C3_both_conflicted_witness :
    (fxStateC3.menu_schedules = [fxSchedS1, fxSchedS2]
        ∧ fxSchedS1.status = ScheduleStatus.Pending
        ∧ fxSchedS2.status = ScheduleStatus.Pending
        ∧ fxSchedS1.start_time ≤ 3600 ∧ fxSchedS2.start_time ≤ 3600
        ∧ fxSchedS1.id ≠ fxSchedS2.id
        ∧ fxSchedS1.start_time ≤ fxSchedS2.end_time
        ∧ fxSchedS1.end_time ≥ fxSchedS2.start_time)
      ∧ ((check_and_execute_schedules fxAddMonth 3600 fxStateC3).menu_schedules
            = [conflictedOf fxSchedS1 fxSchedS2, conflictedOf fxSchedS2 fxSchedS1]
        ∧ (check_and_execute_schedules fxAddMonth 3600 fxStateC3).menu_items
            = fxStateC3.menu_items
        ∧ ¬ ((conflictedOf fxSchedS1 fxSchedS2).status = ScheduleStatus.Active
              ∧ (conflictedOf fxSchedS2 fxSchedS1).status = ScheduleStatus.Active)) :=
  ⟨⟨by decide, by decide, by decide, by decide, by decide, by decide, by decide, by decide⟩,
    C3_both_conflicted fxAddMonth 3600 fxStateC3 fxSchedS1 fxSchedS2
      (by decide) (by decide) (by decide) (by decide) (by decide) (by decide)
      (by decide) (by decide)⟩

/-- C5 witness: the pass of the end-to-end fixture (preset P = items 1 and 2,
items A, B, C) at the concrete conclusion. -/
theorem C5_execution_full_replace_witness :
    (fxSchedS ∈ fxStateC6.menu_schedules
        ∧ fxStateC6.menu_presets.find? (fun p => p.id == fxSchedS.preset_id) = some fxPresetP
        ∧ (fxStateC6.menu_items.map MenuItem.id).Nodup)
      ∧ ∃ st', execute_schedule fxAddMonth 1000 fxStateC6 fxSchedS = (st', none)
        ∧ st'.menu_items = fxStateC6.menu_items.map (setAvail fxPresetP)
        ∧ ∀ it ∈ st'.menu_items,
            (it.id ∈ fxPresetP.menu_item_ids → it.is_available = true)
            ∧ (it.id ∉ fxPresetP.menu_item_ids → it.is_available = false) :=
  ⟨⟨by decide, by decide, by decide⟩,
    C5_execution_full_replace fxAddMonth 1000 fxStateC6 fxSchedS fxPresetP
      (by decide) (by decide) (by decide)⟩

end DiningHall
